import Mathlib

/-!
Verification development for the video template nesting service.

The definitions below are a shallow embedding of the TypeScript sources:
`src/lib/video-processor.ts` (render engine and batch driver),
`src/lib/job-queue.ts` (queue, worker, supervisor, circuit breaker),
`src/lib/job-store.ts` (snapshot persistence), and the HTTP handlers under
`src/app/api/process`. Asynchronous effects (subprocess completions, unlink
failures) are made explicit as oracle parameters; machine timestamps are
plain natural numbers of milliseconds.
-/

namespace VTN

/-- Job states, from `JobStatus` in job-queue.ts. -/
inductive JobStatus where
  | pending
  | processing
  | completed
  | failed
deriving DecidableEq, Repr

/-- Template variants, from `TemplateVariant` in video-processor.ts. -/
inductive TemplateVariant where
  | vertical
  | square
  | landscape
deriving DecidableEq, Repr

/-- String tag of a variant, as used in output filenames and result records. -/
def variantName : TemplateVariant → String
  | .vertical => "vertical"
  | .square => "square"
  | .landscape => "landscape"

/-- Template probe metadata, from `TemplateMetadata` in video-processor.ts. -/
structure TemplateMetadata where
  hasAlphaChannel : Bool
  width : Option Nat
  height : Option Nat
  pixelFormat : Option String
deriving DecidableEq, Repr

/-- Fallback metadata used when probing fails (`defaultTemplateMetadata`). -/
def defaultTemplateMetadata : TemplateMetadata :=
  { hasAlphaChannel := true, width := none, height := none, pixelFormat := none }

/-- An uploaded source video (`UploadedVideoDescriptor`). -/
structure UploadedVideoDescriptor where
  path : String
  originalName : String
deriving DecidableEq, Repr

/-- A template file together with its metadata (`TemplateDescriptor`). -/
structure TemplateDescriptor where
  path : String
  originalName : String
  variant : TemplateVariant
  metadata : Option TemplateMetadata
deriving DecidableEq, Repr

/-- The optional template triple of a payload (`VideoProcessorPayload.templates`). -/
structure PayloadTemplates where
  vertical : Option TemplateDescriptor
  square : Option TemplateDescriptor
  landscape : Option TemplateDescriptor
deriving DecidableEq, Repr

/-- Input of a render job (`VideoProcessorPayload`). -/
structure VideoProcessorPayload where
  videos : List UploadedVideoDescriptor
  templates : PayloadTemplates
deriving DecidableEq, Repr

/-- One output artifact (`GeneratedVideoResult`). -/
structure GeneratedVideoResult where
  type : TemplateVariant
  url : String
  filename : String
deriving DecidableEq, Repr

/-- JavaScript `Math.round` applied to the exact rational `num / den`
(round half up): `floor(num / den + 1 / 2)`. All uses in the sources have
nonnegative arguments and a positive denominator. -/
def jsRound (num den : Nat) : Nat := (2 * num + den) / (2 * den)

/-- Model of JavaScript String.prototype.trim: strips leading and trailing
whitespace. -/
def jsTrim (s : String) : String :=
  String.mk (((s.toList.dropWhile Char.isWhitespace).reverse.dropWhile
    Char.isWhitespace).reverse)

/-- The image test of the render engine: the case-insensitive regular
expression over the template file name matching the extensions
jpg, jpeg, png, gif, bmp, webp at the end of the name. -/
def isImageTemplateName (name : String) : Bool :=
  ["jpg", "jpeg", "png", "gif", "bmp", "webp"].any
    (fun e => name.toLower.endsWith ("." ++ e))

/-! ### Render engine filter graphs (generateVerticalVideo, generateSquareVideo,
generateLandscapeVideo in video-processor.ts) -/

/-- Template input chain of the vertical variant. Image templates get an
additional infinite loop so a still image lasts for the whole source. -/
def verticalTemplateFilter (isImage : Bool) : String :=
  if isImage then
    "[0:v]scale=1080:1920:force_original_aspect_ratio=decrease:flags=lanczos,setsar=1,format=rgba,loop=-1:1:0[template]"
  else
    "[0:v]scale=1080:1920:force_original_aspect_ratio=decrease:flags=lanczos,setsar=1,format=rgba[template]"

/-- Complex filter list passed to ffmpeg by `generateVerticalVideo`. -/
def generateVerticalVideoFilters (isImage : Bool) (templateMetadata : Option TemplateMetadata) :
    List String :=
  let metadata := templateMetadata.getD defaultTemplateMetadata
  [ "[1:v]scale=1080:1920:force_original_aspect_ratio=decrease:flags=lanczos,pad=1080:1920:(ow-iw)/2:(oh-ih)/2:color=black,setsar=1,format=rgba[video]",
    verticalTemplateFilter isImage,
    if metadata.hasAlphaChannel then "[video][template]overlay=0:0[out]"
    else "[template][video]overlay=0:0[out]" ]

/-- Template input chain of the square variant. -/
def squareTemplateFilter (isImage : Bool) : String :=
  if isImage then
    "[0:v]scale=1080:1080:force_original_aspect_ratio=decrease:flags=lanczos,setsar=1,format=rgba,loop=-1:1:0[template]"
  else
    "[0:v]scale=1080:1080:force_original_aspect_ratio=decrease:flags=lanczos,setsar=1,format=rgba[template]"

/-- Complex filter list passed to ffmpeg by `generateSquareVideo`. -/
def generateSquareVideoFilters (isImage : Bool) (templateMetadata : Option TemplateMetadata) :
    List String :=
  let metadata := templateMetadata.getD defaultTemplateMetadata
  [ "[1:v]scale=-2:1080:force_original_aspect_ratio=decrease:flags=lanczos,setsar=1[video_scaled]",
    "[video_scaled]pad=1080:1080:0:(1080-ih)/2:black,format=rgba[video_bg]",
    squareTemplateFilter isImage,
    if metadata.hasAlphaChannel then "[video_bg][template]overlay=0:0[out]"
    else "[template][video_bg]overlay=0:0[out]" ]

/-- Template input chain of the landscape variant. -/
def landscapeTemplateFilter (isImage : Bool) : String :=
  if isImage then
    "[0:v]scale=1920:1080:force_original_aspect_ratio=decrease:flags=lanczos,setsar=1,format=rgba,loop=-1:1:0[template_layer]"
  else
    "[0:v]scale=1920:1080:force_original_aspect_ratio=decrease:flags=lanczos,setsar=1,format=rgba[template_layer]"

/-- Complex filter list passed to ffmpeg by `generateLandscapeVideo`. -/
def generateLandscapeVideoFilters (isImage : Bool) (templateMetadata : Option TemplateMetadata) :
    List String :=
  let metadata := templateMetadata.getD defaultTemplateMetadata
  [ "[1:v]scale=-1:1080:flags=lanczos[scaled_video]",
    "[scaled_video]pad=1920:1080:(ow-iw)/2:(oh-ih)/2:black,setsar=1,format=rgba[video_layer]",
    landscapeTemplateFilter isImage,
    if metadata.hasAlphaChannel then "[video_layer][template_layer]overlay=0:0[out]"
    else "[template_layer][video_layer]overlay=0:0[out]" ]

/-- Filter list of the variant named by the tag. -/
def variantFilters : TemplateVariant → Bool → Option TemplateMetadata → List String
  | .vertical => generateVerticalVideoFilters
  | .square => generateSquareVideoFilters
  | .landscape => generateLandscapeVideoFilters

/-- Label of the padded source layer inside each filter graph. -/
def sourceLayerLabel : TemplateVariant → String
  | .vertical => "video"
  | .square => "video_bg"
  | .landscape => "video_layer"

/-- Label of the scaled template layer inside each filter graph. -/
def templateLayerLabel : TemplateVariant → String
  | .vertical => "template"
  | .square => "template"
  | .landscape => "template_layer"

/-- An ffmpeg overlay stage whose first labelled input is the base layer and
whose second labelled input is drawn on top of it at offset (0,0). -/
def overlayOnTop (topLayer bottomLayer : String) : String :=
  "[" ++ bottomLayer ++ "][" ++ topLayer ++ "]overlay=0:0[out]"

/-- Modelled from the spec: with an alpha channel the template is overlaid on
top of the source canvas; without one the source is overlaid on top of the
template; the overlay offset is (0,0) in both cases. -/
def specOverlayFilter (hasAlpha : Bool) (sourceLayer templateLayer : String) : String :=
  if hasAlpha then overlayOnTop templateLayer sourceLayer
  else overlayOnTop sourceLayer templateLayer

/-! ### Scratch file cleanup (cleanupPayloadFiles in job-queue.ts) -/

/-- Insertion into a JavaScript `Set` iterated in insertion order: adds the
path only when it is not already present. -/
def insertPathUnique (paths : List String) (p : String) : List String :=
  if p ∈ paths then paths else paths ++ [p]

/-- The deduplicated collection `filesToRemove`: every video path, then the
vertical, square and landscape template paths when present. -/
def payloadCleanupPaths (payload : VideoProcessorPayload) : List String :=
  let withVideos := payload.videos.foldl (fun acc f => insertPathUnique acc f.path) []
  let withVertical := match payload.templates.vertical with
    | some t => insertPathUnique withVideos t.path
    | none => withVideos
  let withSquare := match payload.templates.square with
    | some t => insertPathUnique withVertical t.path
    | none => withVertical
  match payload.templates.landscape with
  | some t => insertPathUnique withSquare t.path
  | none => withSquare

/-- Model of `fs.promises.unlink`: removes the path from the file system, or
throws when the oracle says this unlink fails. -/
def unlinkFile (unlinkFails : String → Bool) (fsState : List String) (p : String) :
    Except String (List String) :=
  if unlinkFails p then Except.error ("unlink failed: " ++ p)
  else Except.ok (fsState.filter (fun q => q ≠ p))

/-- One iteration of the cleanup loop: when the file still exists the unlink
is attempted, and an unlink error is caught and logged, never rethrown. The
second component records the attempted paths. -/
def cleanupStep (unlinkFails : String → Bool) (acc : List String × List String) (p : String) :
    List String × List String :=
  if p ∈ acc.1 then
    match unlinkFile unlinkFails acc.1 p with
    | Except.ok fsNext => (fsNext, acc.2 ++ [p])
    | Except.error _ => (acc.1, acc.2 ++ [p])
  else acc

/-- The cleanup operation `cleanupPayloadFiles`: returns the remaining file
system contents and the list of attempted unlinks. -/
def cleanupPayloadFiles (unlinkFails : String → Bool) (fsState : List String)
    (payload : VideoProcessorPayload) : List String × List String :=
  (payloadCleanupPaths payload).foldl (cleanupStep unlinkFails) (fsState, [])

/-! ### The batch driver processVideoBatch (video-processor.ts)

The driver iterates the uploaded sources in order. For one source it starts
the render of every present template concurrently (vertical, square,
landscape in that starting order) and waits for all of them before moving to
the next source. Each render, when it settles, first pushes its artifact on
success, then runs the progress report; the batch aborts at the first
rejection. Which render finishes first is decided by the subprocesses, so
the per-source completion order is an oracle parameter `sched`, and the
success of each render is an oracle `ok` with error text `errOf`. -/

/-- Node `path.parse(name).name` composed with `path.basename`: the part of
the file name after the last slash and before the extension; the extension
starts at the last dot, except when that dot is the first character. -/
def baseNameOf (originalName : String) : String :=
  let base := (originalName.splitOn "/").getLastD ""
  let parts := base.splitOn "."
  if parts.length ≥ 2 ∧ ¬(parts.length = 2 ∧ parts.headD "" = "") then
    String.intercalate "." parts.dropLast
  else base

/-- The artifact record pushed after a successful render: filename
`{variant}_{basename}_{timestamp}.mp4` under /tmp, served at /api/output. -/
def mkGeneratedResult (v : TemplateVariant) (video : UploadedVideoDescriptor)
    (timestamp : Nat) : GeneratedVideoResult :=
  let originalName := if video.originalName = "" then "video" else video.originalName
  let filename :=
    variantName v ++ "_" ++ baseNameOf originalName ++ "_" ++ toString timestamp ++ ".mp4"
  { type := v, url := "/api/output/" ++ filename, filename := filename }

/-- The variants whose template slot is filled, in the fixed starting order
vertical, square, landscape (the order of `templatesToRender`). -/
def presentSlots (t : PayloadTemplates) : List TemplateVariant :=
  (if t.vertical.isSome then [TemplateVariant.vertical] else []) ++
  (if t.square.isSome then [TemplateVariant.square] else []) ++
  (if t.landscape.isSome then [TemplateVariant.landscape] else [])

/-- totalVariants as computed by processVideoBatch: sources times templates
present. -/
def batchTotalVariants (payload : VideoProcessorPayload) : Nat :=
  payload.videos.length * (presentSlots payload.templates).length

/-- Trace of the renders of one source settling, in completion order:
the progress-report events, the artifacts pushed, the final value of the
completed counter, and the first failure, if any. -/
structure SourceRun where
  events : List (Nat × Nat)
  results : List GeneratedVideoResult
  completed : Nat
  failure : Option String
deriving DecidableEq, Repr

/-- Settling of one source's renders in the completion order `comps`. On a
success the artifact is pushed and the counter reported; on a failure the
counter is still reported (the report lives in a finally handler) and the
batch then aborts with that error. -/
def runSourceCompletions (video : UploadedVideoDescriptor) (timestamp : Nat)
    (ok : TemplateVariant → Bool) (errOf : TemplateVariant → String) (total : Nat) :
    List TemplateVariant → Nat → SourceRun
  | [], completed => { events := [], results := [], completed := completed, failure := none }
  | v :: rest, completed =>
      if ok v then
        let tail := runSourceCompletions video timestamp ok errOf total rest (completed + 1)
        { events := (completed + 1, total) :: tail.events,
          results := mkGeneratedResult v video timestamp :: tail.results,
          completed := tail.completed, failure := tail.failure }
      else
        { events := [(completed + 1, total)], results := [],
          completed := completed + 1, failure := some (errOf v) }

deriving instance DecidableEq for Except

/-- Trace of a whole batch: the progress-report events in order, and either
the ordered artifact list or the first render error. -/
structure BatchRun where
  events : List (Nat × Nat)
  outcome : Except String (List GeneratedVideoResult)
deriving DecidableEq, Repr

/-- The source loop of processVideoBatch: sources strictly in upload order,
with a completion barrier between consecutive sources. -/
def runVideosLoop (sched : Nat → List TemplateVariant) (ok : Nat → TemplateVariant → Bool)
    (errOf : Nat → TemplateVariant → String) (ts : Nat → Nat) (total : Nat) :
    List UploadedVideoDescriptor → Nat → Nat → BatchRun
  | [], _, _ => { events := [], outcome := Except.ok [] }
  | video :: rest, idx, completed =>
      let sr := runSourceCompletions video (ts idx) (ok idx) (errOf idx) total (sched idx)
        completed
      match sr.failure with
      | some e => { events := sr.events, outcome := Except.error e }
      | none =>
          let tail := runVideosLoop sched ok errOf ts total rest (idx + 1) sr.completed
          { events := sr.events ++ tail.events,
            outcome := match tail.outcome with
              | Except.ok rs => Except.ok (sr.results ++ rs)
              | Except.error e => Except.error e }

/-- processVideoBatch: validates the payload, then runs the source loop with
`totalVariants` fixed to sources times templates present. -/
def processVideoBatch (payload : VideoProcessorPayload)
    (sched : Nat → List TemplateVariant) (ok : Nat → TemplateVariant → Bool)
    (errOf : Nat → TemplateVariant → String) (ts : Nat → Nat) : BatchRun :=
  if (presentSlots payload.templates).length = 0 then
    { events := [], outcome := Except.error "至少需要上传一个模板文件" }
  else if payload.videos.length = 0 then
    { events := [], outcome := Except.error "未找到可处理的视频文件" }
  else runVideosLoop sched ok errOf ts (batchTotalVariants payload) payload.videos 0 0

/-! ### The job record and the worker's per-job mutations (job-queue.ts) -/

/-- The metrics object of a job record. -/
structure JobMetrics where
  completedVariants : Nat
  totalVariants : Nat
deriving DecidableEq, Repr

/-- An internal job record (`InternalJobRecord`). -/
structure MJob where
  id : String
  ownerId : String
  status : JobStatus
  progress : Nat
  createdAt : Nat
  updatedAt : Nat
  startedAt : Option Nat
  finishedAt : Option Nat
  message : Option String
  result : Option (List GeneratedVideoResult)
  error : Option String
  metrics : JobMetrics
  payload : VideoProcessorPayload
deriving DecidableEq, Repr

/-- The record created by enqueueJob: pending, zero progress, zero metrics. -/
def freshJobRecord (id ownerId : String) (now : Nat) (payload : VideoProcessorPayload) :
    MJob :=
  { id := id, ownerId := ownerId, status := .pending, progress := 0, createdAt := now,
    updatedAt := now, startedAt := none, finishedAt := none, message := none,
    result := none, error := none,
    metrics := { completedVariants := 0, totalVariants := 0 }, payload := payload }

/-- Worker mutations at the moment a job is picked (runQueueWorker): status
processing, progress 5, startedAt set, completedVariants reset to 0. The
totalVariants field is not assigned here. -/
def pickJobForProcessing (now : Nat) (job : MJob) : MJob :=
  { job with
    status := .processing
    progress := 5
    updatedAt := now
    startedAt := some now
    metrics := { completedVariants := 0, totalVariants := job.metrics.totalVariants } }

/-- The onProgress callback installed by runQueueWorker: copies both counters
into the metrics and sets progress to min(99, Math.round(completed / total
times 100)). -/
def applyProgressEvent (now : Nat) (job : MJob) (e : Nat × Nat) : MJob :=
  { job with
    metrics := { completedVariants := e.1, totalVariants := e.2 }
    progress := min 99 (jsRound (e.1 * 100) e.2)
    updatedAt := now }

/-- Job states visible to readers while a job is being processed: the state
right after pick, then the state after each progress callback (a snapshot is
persisted at each of these points). -/
def jobObservations (now : Nat) (job : MJob) (events : List (Nat × Nat)) : List MJob :=
  events.scanl (applyProgressEvent now) (pickJobForProcessing now job)

/-! ### Theorems about the render engine filter graphs -/

/-- C6: for every variant, when the template metadata reports an alpha channel
the final overlay stage draws the template layer on top of the padded source
layer, and otherwise the source layer on top of the template layer, with
overlay offset (0,0) in both cases. -/
theorem overlay_order_follows_alpha (v : TemplateVariant) (isImage : Bool)
    (templateMetadata : Option TemplateMetadata) :
    (variantFilters v isImage templateMetadata).getLast? =
      some (specOverlayFilter ((templateMetadata.getD defaultTemplateMetadata).hasAlphaChannel)
        (sourceLayerLabel v) (templateLayerLabel v)) := by
  cases v <;>
    simp only [variantFilters, generateVerticalVideoFilters, generateSquareVideoFilters,
      generateLandscapeVideoFilters, specOverlayFilter, overlayOnTop, sourceLayerLabel,
      templateLayerLabel] <;>
    cases h : (templateMetadata.getD defaultTemplateMetadata).hasAlphaChannel <;>
    simp [h]

/-! ### Theorems about scratch file cleanup -/

/-- Helper: closed form of the file-system component of the cleanup fold. A
path is removed exactly when it is among the candidates, was present, and its
unlink does not fail. -/
theorem cleanup_foldl_fst (f : String → Bool) (paths : List String) :
    ∀ (fs att : List String),
      (paths.foldl (cleanupStep f) (fs, att)).1 =
        fs.filter (fun q => !(decide (q ∈ paths) && !f q)) := by
  induction paths with
  | nil =>
      intro fs att
      simp [List.filter_eq_self]
  | cons p rest ih =>
      intro fs att
      rw [List.foldl_cons]
      by_cases hp : p ∈ fs
      · by_cases hf : f p = true
        · rw [show cleanupStep f (fs, att) p = (fs, att ++ [p]) by
            simp [cleanupStep, unlinkFile, hp, hf]]
          rw [ih fs (att ++ [p])]
          refine List.filter_congr ?_
          intro q _
          by_cases hq : q = p
          · subst hq; simp [hf]
          · simp [List.mem_cons, hq]
        · rw [show cleanupStep f (fs, att) p = (fs.filter (fun q => q ≠ p), att ++ [p]) by
            simp [cleanupStep, unlinkFile, hp, hf]]
          rw [ih _ (att ++ [p]), List.filter_filter]
          refine List.filter_congr ?_
          intro q _
          by_cases hq : q = p
          · subst hq; simp [hf]
          · simp [List.mem_cons, hq]
      · rw [show cleanupStep f (fs, att) p = (fs, att) by simp [cleanupStep, hp]]
        rw [ih fs att]
        refine List.filter_congr ?_
        intro q hq
        have hqp : q ≠ p := fun h => hp (h ▸ hq)
        simp [List.mem_cons, hqp]

/-- Helper: the attempted-unlink log of the fold is a sublist of the starting
log followed by the candidate paths. -/
theorem cleanup_foldl_snd_sublist (f : String → Bool) (paths : List String) :
    ∀ (fs att : List String),
      ((paths.foldl (cleanupStep f) (fs, att)).2).Sublist (att ++ paths) := by
  induction paths with
  | nil =>
      intro fs att
      simp
  | cons p rest ih =>
      intro fs att
      rw [List.foldl_cons]
      by_cases hp : p ∈ fs
      · by_cases hf : f p = true
        · rw [show cleanupStep f (fs, att) p = (fs, att ++ [p]) by
            simp [cleanupStep, unlinkFile, hp, hf]]
          have := ih fs (att ++ [p])
          rwa [List.append_assoc, List.singleton_append] at this
        · rw [show cleanupStep f (fs, att) p = (fs.filter (fun q => q ≠ p), att ++ [p]) by
            simp [cleanupStep, unlinkFile, hp, hf]]
          have := ih (fs.filter (fun q => q ≠ p)) (att ++ [p])
          rwa [List.append_assoc, List.singleton_append] at this
      · rw [show cleanupStep f (fs, att) p = (fs, att) by simp [cleanupStep, hp]]
        exact (ih fs att).trans (List.Sublist.append_left (List.sublist_cons_self p rest) att)

/-- Helper: every path the cleanup fold attempts to unlink was either already
in the starting log or present in the starting file system. -/
theorem cleanup_foldl_snd_mem (f : String → Bool) (paths : List String) :
    ∀ (fs att : List String) (q : String),
      q ∈ (paths.foldl (cleanupStep f) (fs, att)).2 → q ∈ att ∨ q ∈ fs := by
  induction paths with
  | nil =>
      intro fs att q hq
      exact Or.inl hq
  | cons p rest ih =>
      intro fs att q hq
      rw [List.foldl_cons] at hq
      by_cases hp : p ∈ fs
      · have hsub : (cleanupStep f (fs, att) p).1.Sublist fs := by
          by_cases hf : f p = true <;> simp [cleanupStep, unlinkFile, hp, hf]
        have hatt : (cleanupStep f (fs, att) p).2 = att ++ [p] := by
          by_cases hf : f p = true <;> simp [cleanupStep, unlinkFile, hp, hf]
        rcases ih (cleanupStep f (fs, att) p).1 (cleanupStep f (fs, att) p).2 q hq with h | h
        · rw [hatt] at h
          rcases List.mem_append.mp h with h | h
          · exact Or.inl h
          · right
            have : q = p := by simpa using h
            exact this ▸ hp
        · exact Or.inr (hsub.mem h)
      · rw [show cleanupStep f (fs, att) p = (fs, att) by simp [cleanupStep, hp]] at hq
        exact ih fs att q hq

/-- Helper: inserting into the path set preserves freedom from duplicates. -/
theorem insertPathUnique_nodup {paths : List String} {p : String} (h : paths.Nodup) :
    (insertPathUnique paths p).Nodup := by
  unfold insertPathUnique
  split
  · exact h
  · rename_i hp
    exact List.Nodup.append h (by simp) (by simpa [List.disjoint_singleton] using hp)

/-- Helper: the deduplicated candidate list has no duplicates. -/
theorem payloadCleanupPaths_nodup (payload : VideoProcessorPayload) :
    (payloadCleanupPaths payload).Nodup := by
  unfold payloadCleanupPaths
  have hbase : ∀ (vs : List UploadedVideoDescriptor) (acc : List String), acc.Nodup →
      (vs.foldl (fun a fd => insertPathUnique a fd.path) acc).Nodup := by
    intro vs
    induction vs with
    | nil => intro acc h; exact h
    | cons v rest ih => intro acc h; exact ih _ (insertPathUnique_nodup h)
  have h1 := hbase payload.videos [] (by simp)
  have h2 : ∀ (acc : List String) (t : Option TemplateDescriptor), acc.Nodup →
      (match t with
        | some td => insertPathUnique acc td.path
        | none => acc).Nodup := by
    intro acc t h
    cases t with
    | some td => exact insertPathUnique_nodup h
    | none => exact h
  exact h2 _ _ (h2 _ _ (h2 _ _ h1))

/-- C10: the scratch cleanup is harmless. It attempts each distinct payload
path at most once, attempts an unlink only for paths that were present in the
file system, swallows unlink failures, and running it a second time on the
same payload leaves the file system unchanged. -/
theorem cleanupPayloadFiles_at_most_once_and_idempotent (f : String → Bool)
    (fs : List String) (payload : VideoProcessorPayload) :
    (cleanupPayloadFiles f fs payload).2.Nodup ∧
    (∀ p ∈ (cleanupPayloadFiles f fs payload).2, p ∈ fs) ∧
    (cleanupPayloadFiles f (cleanupPayloadFiles f fs payload).1 payload).1 =
      (cleanupPayloadFiles f fs payload).1 := by
  refine ⟨?_, ?_, ?_⟩
  · exact ((cleanup_foldl_snd_sublist f (payloadCleanupPaths payload) fs []).nodup
      (by simpa using payloadCleanupPaths_nodup payload))
  · intro p hp
    rcases cleanup_foldl_snd_mem f (payloadCleanupPaths payload) fs [] p hp with h | h
    · simp at h
    · exact h
  · unfold cleanupPayloadFiles
    rw [cleanup_foldl_fst, cleanup_foldl_fst, List.filter_filter]
    refine List.filter_congr ?_
    intro q _
    cases hq : decide (q ∈ payloadCleanupPaths payload) <;> cases hf : f q <;> simp [hq, hf]

/-! ### Theorems about the batch driver and the worker metrics -/

/-- Helper: a later progress callback overwrites the fields written by an
earlier one, so only the last event matters. -/
theorem applyProgressEvent_overwrite (now : Nat) (job : MJob) (e1 e2 : Nat × Nat) :
    applyProgressEvent now (applyProgressEvent now job e1) e2 =
      applyProgressEvent now job e2 := rfl

/-- Helper: the observation list is the picked state followed by the image of
the event list under the progress callback applied to the picked state. -/
theorem jobObservations_eq (now : Nat) (job : MJob) (events : List (Nat × Nat)) :
    jobObservations now job events =
      pickJobForProcessing now job ::
        events.map (applyProgressEvent now (pickJobForProcessing now job)) := by
  unfold jobObservations
  generalize pickJobForProcessing now job = j0
  induction events generalizing j0 with
  | nil => rfl
  | cons e rest ih =>
      rw [List.scanl_cons, ih (applyProgressEvent now j0 e), List.map_cons]
      have hfun : applyProgressEvent now (applyProgressEvent now j0 e) =
          applyProgressEvent now j0 := funext fun e2 => applyProgressEvent_overwrite now j0 e e2
      rw [hfun]
      rfl

/-- Number of renders of one source that settle (and therefore report
progress) before the batch aborts: all of them when every render succeeds,
otherwise everything up to and including the first failure. -/
def settledCount (ok : TemplateVariant → Bool) : List TemplateVariant → Nat
  | [] => 0
  | v :: rest => if ok v then settledCount ok rest + 1 else 1

/-- Whether some render of the source fails. -/
def sourceFails (ok : TemplateVariant → Bool) (comps : List TemplateVariant) : Bool :=
  comps.any (fun v => !(ok v))

/-- Number of progress reports fired by the whole source loop. -/
def batchSettledCount (sched : Nat → List TemplateVariant) (ok : Nat → TemplateVariant → Bool) :
    List UploadedVideoDescriptor → Nat → Nat
  | [], _ => 0
  | _ :: rest, idx =>
      if sourceFails (ok idx) (sched idx) then settledCount (ok idx) (sched idx)
      else settledCount (ok idx) (sched idx) + batchSettledCount sched ok rest (idx + 1)

/-- Helper: the settled renders of one source are at most its completion list. -/
theorem settledCount_le (ok : TemplateVariant → Bool) :
    ∀ comps : List TemplateVariant, settledCount ok comps ≤ comps.length := by
  intro comps
  induction comps with
  | nil => simp [settledCount]
  | cons v rest ih =>
      by_cases h : ok v = true
      · simp only [settledCount, h, if_true, List.length_cons]
        omega
      · simp [settledCount, h]

/-- Helper: the completed counter after one source settles advances by the
number of settled renders. -/
theorem runSourceCompletions_completed (video : UploadedVideoDescriptor) (tsv : Nat)
    (ok : TemplateVariant → Bool) (errOf : TemplateVariant → String) (total : Nat) :
    ∀ (comps : List TemplateVariant) (c : Nat),
      (runSourceCompletions video tsv ok errOf total comps c).completed =
        c + settledCount ok comps := by
  intro comps
  induction comps with
  | nil => intro c; simp [runSourceCompletions, settledCount]
  | cons v rest ih =>
      intro c
      by_cases h : ok v = true
      · simp only [runSourceCompletions, h, if_true, settledCount]
        rw [ih (c + 1)]
        omega
      · simp [runSourceCompletions, settledCount, h]

/-- Helper: one source aborts the batch exactly when one of its renders
fails. -/
theorem runSourceCompletions_failure (video : UploadedVideoDescriptor) (tsv : Nat)
    (ok : TemplateVariant → Bool) (errOf : TemplateVariant → String) (total : Nat) :
    ∀ (comps : List TemplateVariant) (c : Nat),
      ((runSourceCompletions video tsv ok errOf total comps c).failure = none) ↔
        sourceFails ok comps = false := by
  intro comps
  induction comps with
  | nil => intro c; simp [runSourceCompletions, sourceFails]
  | cons v rest ih =>
      intro c
      by_cases h : ok v = true
      · simpa [runSourceCompletions, sourceFails, h] using ih (c + 1)
      · simp [runSourceCompletions, sourceFails, h]

/-- Helper: the progress reports of one source count up by one from the
starting counter, each carrying the fixed total. -/
theorem runSourceCompletions_events (video : UploadedVideoDescriptor) (tsv : Nat)
    (ok : TemplateVariant → Bool) (errOf : TemplateVariant → String) (total : Nat) :
    ∀ (comps : List TemplateVariant) (c : Nat),
      (runSourceCompletions video tsv ok errOf total comps c).events =
        (List.range (settledCount ok comps)).map (fun j => (c + j + 1, total)) := by
  intro comps
  induction comps with
  | nil => intro c; simp [runSourceCompletions, settledCount]
  | cons v rest ih =>
      intro c
      by_cases h : ok v = true
      · have hev : (runSourceCompletions video tsv ok errOf total (v :: rest) c).events =
            (c + 1, total) ::
              (runSourceCompletions video tsv ok errOf total rest (c + 1)).events := by
          simp [runSourceCompletions, h]
        rw [hev, ih (c + 1)]
        have hcount : settledCount ok (v :: rest) = settledCount ok rest + 1 := by
          simp [settledCount, h]
        rw [hcount, List.range_succ_eq_map, List.map_cons, List.map_map]
        refine List.cons_eq_cons.mpr ⟨by simp, ?_⟩
        refine List.map_congr_left ?_
        intro j _
        simp only [Function.comp_apply, Prod.mk.injEq, and_true]
        omega
      · have hcount : settledCount ok (v :: rest) = 1 := by simp [settledCount, h]
        rw [hcount]
        simp [runSourceCompletions, h, List.range_succ]

/-- Helper: the progress reports of the whole source loop count up by one
from the starting counter, each carrying the fixed total. -/
theorem runVideosLoop_events (sched : Nat → List TemplateVariant)
    (ok : Nat → TemplateVariant → Bool) (errOf : Nat → TemplateVariant → String)
    (ts : Nat → Nat) (total : Nat) :
    ∀ (vs : List UploadedVideoDescriptor) (idx c : Nat),
      (runVideosLoop sched ok errOf ts total vs idx c).events =
        (List.range (batchSettledCount sched ok vs idx)).map (fun j => (c + j + 1, total)) := by
  intro vs
  induction vs with
  | nil => intro idx c; simp [runVideosLoop, batchSettledCount]
  | cons video rest ih =>
      intro idx c
      by_cases hfail : sourceFails (ok idx) (sched idx) = true
      · obtain ⟨e, he⟩ : ∃ e,
            (runSourceCompletions video (ts idx) (ok idx) (errOf idx) total (sched idx)
              c).failure = some e := by
          rcases hopt : (runSourceCompletions video (ts idx) (ok idx) (errOf idx) total
            (sched idx) c).failure with _ | e
          · rw [(runSourceCompletions_failure video (ts idx) (ok idx) (errOf idx) total
              (sched idx) c).mp hopt] at hfail
            cases hfail
          · exact ⟨e, rfl⟩
        rw [show (runVideosLoop sched ok errOf ts total (video :: rest) idx c).events =
            (runSourceCompletions video (ts idx) (ok idx) (errOf idx) total (sched idx)
              c).events by
          simp only [runVideosLoop]
          rw [he]]
        rw [runSourceCompletions_events, show batchSettledCount sched ok (video :: rest) idx =
          settledCount (ok idx) (sched idx) by simp [batchSettledCount, hfail]]
      · have hnone : (runSourceCompletions video (ts idx) (ok idx) (errOf idx) total (sched idx)
            c).failure = none :=
          (runSourceCompletions_failure video (ts idx) (ok idx) (errOf idx) total (sched idx)
            c).mpr (by simpa using hfail)
        rw [show (runVideosLoop sched ok errOf ts total (video :: rest) idx c).events =
            (runSourceCompletions video (ts idx) (ok idx) (errOf idx) total (sched idx)
              c).events ++
            (runVideosLoop sched ok errOf ts total rest (idx + 1)
              (runSourceCompletions video (ts idx) (ok idx) (errOf idx) total (sched idx)
                c).completed).events by
          simp only [runVideosLoop]
          rw [hnone]]
        rw [runSourceCompletions_events, runSourceCompletions_completed, ih (idx + 1)]
        rw [show batchSettledCount sched ok (video :: rest) idx =
          settledCount (ok idx) (sched idx) + batchSettledCount sched ok rest (idx + 1) by
          simp [batchSettledCount, hfail]]
        rw [List.range_add, List.map_append, List.map_map]
        refine congrArg₂ _ rfl ?_
        refine List.map_congr_left ?_
        intro j _
        simp only [Function.comp_apply, Prod.mk.injEq, and_true]
        omega

/-- Helper: the loop fires at most one progress report per source and
template pair. -/
theorem batchSettledCount_le (sched : Nat → List TemplateVariant)
    (ok : Nat → TemplateVariant → Bool) (S : Nat) (hs : ∀ i, (sched i).length = S) :
    ∀ (vs : List UploadedVideoDescriptor) (idx : Nat),
      batchSettledCount sched ok vs idx ≤ vs.length * S := by
  intro vs
  induction vs with
  | nil => intro idx; simp [batchSettledCount]
  | cons video rest ih =>
      intro idx
      have hsrc : settledCount (ok idx) (sched idx) ≤ S := by
        simpa [hs idx] using settledCount_le (ok idx) (sched idx)
      have htail := ih (idx + 1)
      by_cases hfail : sourceFails (ok idx) (sched idx) = true <;>
        simp only [batchSettledCount, hfail, if_true, if_false, List.length_cons,
          Bool.false_eq_true] <;>
        [skip; skip] <;> nlinarith [Nat.succ_mul rest.length S]

/-- Helper: on an all-success run one source pushes exactly the artifacts of
its completion order, with no failure, in that order. -/
theorem runSourceCompletions_allok (video : UploadedVideoDescriptor) (tsv : Nat)
    (ok : TemplateVariant → Bool) (errOf : TemplateVariant → String) (total : Nat)
    (hok : ∀ v, ok v = true) :
    ∀ (comps : List TemplateVariant) (c : Nat),
      (runSourceCompletions video tsv ok errOf total comps c).failure = none ∧
      (runSourceCompletions video tsv ok errOf total comps c).results =
        comps.map (fun v => mkGeneratedResult v video tsv) := by
  intro comps
  induction comps with
  | nil => intro c; simp [runSourceCompletions]
  | cons v rest ih =>
      intro c
      have h := hok v
      simp only [runSourceCompletions, h, if_true, List.map_cons]
      exact ⟨(ih (c + 1)).1, by rw [(ih (c + 1)).2]⟩

/-- Helper: on an all-success run the loop returns, for each source in
upload order, that source's artifacts in its completion order. -/
theorem runVideosLoop_allok (sched : Nat → List TemplateVariant)
    (ok : Nat → TemplateVariant → Bool) (errOf : Nat → TemplateVariant → String)
    (ts : Nat → Nat) (total : Nat) (hok : ∀ i v, ok i v = true) :
    ∀ (vs : List UploadedVideoDescriptor) (idx c : Nat),
      (runVideosLoop sched ok errOf ts total vs idx c).outcome =
        Except.ok ((List.enumFrom idx vs).flatMap (fun p =>
          (sched p.1).map (fun v => mkGeneratedResult v p.2 (ts p.1)))) := by
  intro vs
  induction vs with
  | nil => intro idx c; simp [runVideosLoop]
  | cons video rest ih =>
      intro idx c
      have hsrc := runSourceCompletions_allok video (ts idx) (ok idx) (errOf idx) total
        (hok idx) (sched idx) c
      simp only [runVideosLoop]
      rw [hsrc.1, ih (idx + 1)]
      simp only [List.enumFrom_cons, List.flatMap_cons]
      rw [hsrc.2]

/-- Helper: the progress reports of a whole batch enumerate 1, 2, 3, and so
on, each carrying totalVariants = sources times templates present, and there
are at most totalVariants of them. -/
theorem processVideoBatch_events (payload : VideoProcessorPayload)
    (sched : Nat → List TemplateVariant) (ok : Nat → TemplateVariant → Bool)
    (errOf : Nat → TemplateVariant → String) (ts : Nat → Nat)
    (hperm : ∀ i, (sched i).Perm (presentSlots payload.templates)) :
    ∃ n, n ≤ batchTotalVariants payload ∧
      (processVideoBatch payload sched ok errOf ts).events =
        (List.range n).map (fun j => (j + 1, batchTotalVariants payload)) := by
  unfold processVideoBatch
  by_cases h1 : (presentSlots payload.templates).length = 0
  · exact ⟨0, by simp, by simp [h1]⟩
  · by_cases h2 : payload.videos.length = 0
    · exact ⟨0, by simp, by simp [h1, h2]⟩
    · refine ⟨batchSettledCount sched ok payload.videos 0, ?_, ?_⟩
      · have := batchSettledCount_le sched ok (presentSlots payload.templates).length
          (fun i => (hperm i).length_eq) payload.videos 0
        simpa [batchTotalVariants, Nat.mul_comm] using this
      · rw [if_neg h1, if_neg h2]
        have := runVideosLoop_events sched ok errOf ts (batchTotalVariants payload)
          payload.videos 0 0
        simpa using this

/-- Sample source video for the concrete counterexamples. -/
def sampleVideo : UploadedVideoDescriptor :=
  { path := "/tmp/video_a.mp4", originalName := "clip.mp4" }

/-- Sample vertical template with an alpha channel. -/
def sampleVerticalTemplate : TemplateDescriptor where
  path := "/tmp/tpl_v.png"
  originalName := "tv.png"
  variant := .vertical
  metadata := some { hasAlphaChannel := true, width := some 1080, height := some 1920, pixelFormat := some "rgba" }

/-- Sample square template without an alpha channel. -/
def sampleSquareTemplate : TemplateDescriptor where
  path := "/tmp/tpl_s.mp4"
  originalName := "tsq.mp4"
  variant := .square
  metadata := some { hasAlphaChannel := false, width := some 1080, height := some 1080, pixelFormat := some "yuv420p" }

/-- One source with vertical and square templates. -/
def samplePayloadTwo : VideoProcessorPayload where
  videos := [sampleVideo]
  templates :=
    { vertical := some sampleVerticalTemplate
      square := some sampleSquareTemplate
      landscape := none }

/-- One source with a single vertical template. -/
def samplePayloadOne : VideoProcessorPayload where
  videos := [sampleVideo]
  templates :=
    { vertical := some sampleVerticalTemplate
      square := none
      landscape := none }

/-- C1 (counterexample): with one source and the vertical and square
templates, the completion order square-before-vertical is a legitimate
schedule of the concurrently started renders, and the recorded result
sequence is then square before vertical, not the fixed insertion order
vertical before square. -/
theorem result_order_counterexample :
    ((fun _ : Nat => [TemplateVariant.square, TemplateVariant.vertical]) 0).Perm
        (presentSlots samplePayloadTwo.templates) ∧
    ((processVideoBatch samplePayloadTwo
        (fun _ => [TemplateVariant.square, TemplateVariant.vertical])
        (fun _ _ => true) (fun _ _ => "") (fun _ => 7)).outcome.map
      (List.map GeneratedVideoResult.type)) =
      Except.ok [TemplateVariant.square, TemplateVariant.vertical] ∧
    presentSlots samplePayloadTwo.templates =
      [TemplateVariant.vertical, TemplateVariant.square] ∧
    [TemplateVariant.square, TemplateVariant.vertical] ≠
      [TemplateVariant.vertical, TemplateVariant.square] := by decide

/-- C1 (amended): sources are processed strictly in upload order with a
barrier between sources, but within one source the present variants are all
started concurrently (starting order vertical, square, landscape) and the
artifacts are recorded in completion order. Each source's block of artifacts
is a permutation of the fixed order restricted to templates present, and the
recorded order equals that fixed order exactly when the completions happen
in starting order. -/
theorem result_order_is_completion_order (payload : VideoProcessorPayload)
    (sched : Nat → List TemplateVariant) (ok : Nat → TemplateVariant → Bool)
    (errOf : Nat → TemplateVariant → String) (ts : Nat → Nat)
    (hv : payload.videos ≠ []) (hslots : presentSlots payload.templates ≠ [])
    (hok : ∀ i v, ok i v = true)
    (hperm : ∀ i, (sched i).Perm (presentSlots payload.templates)) :
    (processVideoBatch payload sched ok errOf ts).outcome =
      Except.ok ((List.enumFrom 0 payload.videos).flatMap (fun p =>
        (sched p.1).map (fun v => mkGeneratedResult v p.2 (ts p.1)))) ∧
    (∀ (i : Nat) (video : UploadedVideoDescriptor),
      (((sched i).map (fun v => mkGeneratedResult v video (ts i))).map
        GeneratedVideoResult.type).Perm (presentSlots payload.templates)) ∧
    ((∀ i, sched i = presentSlots payload.templates) →
      (processVideoBatch payload sched ok errOf ts).outcome =
        Except.ok ((List.enumFrom 0 payload.videos).flatMap (fun p =>
          (presentSlots payload.templates).map
            (fun v => mkGeneratedResult v p.2 (ts p.1))))) := by
  have h1 : (processVideoBatch payload sched ok errOf ts).outcome =
      Except.ok ((List.enumFrom 0 payload.videos).flatMap (fun p =>
        (sched p.1).map (fun v => mkGeneratedResult v p.2 (ts p.1)))) := by
    unfold processVideoBatch
    rw [if_neg (by simpa [List.length_eq_zero] using hslots),
      if_neg (by simpa [List.length_eq_zero] using hv)]
    exact runVideosLoop_allok sched ok errOf ts (batchTotalVariants payload) hok
      payload.videos 0 0
  refine ⟨h1, ?_, ?_⟩
  · intro i video
    have hmap : (((sched i).map (fun v => mkGeneratedResult v video (ts i))).map
        GeneratedVideoResult.type) = sched i := by
      rw [List.map_map]
      exact List.map_id _ ▸ List.map_congr_left (fun v _ => rfl)
    rw [hmap]
    exact hperm i
  · intro hin
    rw [h1]
    simp only [hin]

/-- C3 (counterexample): at the moment a job's status becomes processing the
metrics still read totalVariants = 0 (only completedVariants is reset), even
though the payload has one source and one template, so the claimed equality
totalVariants = sources times templates present fails at that observation
point. -/
theorem metrics_total_zero_at_processing_start :
    ((jobObservations 5 (freshJobRecord "job-1" "anon_a" 0 samplePayloadOne)
        (processVideoBatch samplePayloadOne (fun _ => [TemplateVariant.vertical])
          (fun _ _ => true) (fun _ _ => "") (fun _ => 0)).events).getD 0
        (freshJobRecord "job-1" "anon_a" 0 samplePayloadOne)).status =
      JobStatus.processing ∧
    ((jobObservations 5 (freshJobRecord "job-1" "anon_a" 0 samplePayloadOne)
        (processVideoBatch samplePayloadOne (fun _ => [TemplateVariant.vertical])
          (fun _ _ => true) (fun _ _ => "") (fun _ => 0)).events).getD 0
        (freshJobRecord "job-1" "anon_a" 0 samplePayloadOne)).metrics.totalVariants = 0 ∧
    batchTotalVariants samplePayloadOne = 1 := by decide

/-- C3 (amended): at every observation point of a processing job the metrics
satisfy completedVariants less or equal totalVariants; totalVariants equals
sources times templates present from the first progress report onward, while
at the observation point where processing starts the metrics are still
(0, 0). -/
theorem metrics_bounded_and_total_set_after_first_event (payload : VideoProcessorPayload)
    (sched : Nat → List TemplateVariant) (ok : Nat → TemplateVariant → Bool)
    (errOf : Nat → TemplateVariant → String) (ts : Nat → Nat) (now : Nat) (job : MJob)
    (hperm : ∀ i, (sched i).Perm (presentSlots payload.templates)) :
    (∀ s ∈ jobObservations now job (processVideoBatch payload sched ok errOf ts).events,
        s.metrics.completedVariants ≤ s.metrics.totalVariants) ∧
    (∀ s ∈ (jobObservations now job
        (processVideoBatch payload sched ok errOf ts).events).tail,
        s.metrics.totalVariants = batchTotalVariants payload) := by
  obtain ⟨n, hn, hev⟩ := processVideoBatch_events payload sched ok errOf ts hperm
  rw [jobObservations_eq, hev]
  constructor
  · intro s hs
    rcases List.mem_cons.mp hs with h | h
    · subst h
      simp [pickJobForProcessing]
    · rcases List.mem_map.mp h with ⟨e, he, rfl⟩
      rcases List.mem_map.mp he with ⟨j, hj, rfl⟩
      have hjn : j < n := List.mem_range.mp hj
      simp only [applyProgressEvent]
      omega
  · intro s hs
    rw [List.tail_cons] at hs
    rcases List.mem_map.mp hs with ⟨e, he, rfl⟩
    rcases List.mem_map.mp he with ⟨j, hj, rfl⟩
    rfl

/-- C4 (counterexample): when the single render of a one-source one-template
job fails, the progress report still fires and sets completedVariants to 1
before the batch aborts: the counter is incremented after a failed render. -/
theorem completed_incremented_after_failed_render :
    (processVideoBatch samplePayloadOne (fun _ => [TemplateVariant.vertical])
        (fun _ _ => false) (fun _ _ => "ffmpeg exited with code 1") (fun _ => 0)).events =
      [(1, 1)] ∧
    (processVideoBatch samplePayloadOne (fun _ => [TemplateVariant.vertical])
        (fun _ _ => false) (fun _ _ => "ffmpeg exited with code 1") (fun _ => 0)).outcome =
      Except.error "ffmpeg exited with code 1" ∧
    ((fun _ : Nat => [TemplateVariant.vertical]) 0).Perm
      (presentSlots samplePayloadOne.templates) := by decide

/-- C4 (amended): completedVariants is incremented exactly once per variant
render that settles, after successes and failures alike, and right after the
k-th increment the job shows completedVariants = k and progress =
min(99, round(k / totalVariants times 100)). -/
theorem progress_increment_per_settled_render (payload : VideoProcessorPayload)
    (sched : Nat → List TemplateVariant) (ok : Nat → TemplateVariant → Bool)
    (errOf : Nat → TemplateVariant → String) (ts : Nat → Nat) (now : Nat) (job : MJob)
    (hperm : ∀ i, (sched i).Perm (presentSlots payload.templates)) :
    (processVideoBatch payload sched ok errOf ts).events =
      (List.range (processVideoBatch payload sched ok errOf ts).events.length).map
        (fun j => (j + 1, batchTotalVariants payload)) ∧
    (∀ k, k < (processVideoBatch payload sched ok errOf ts).events.length →
      ((jobObservations now job (processVideoBatch payload sched ok errOf ts).events).getD
          (k + 1) job).metrics.completedVariants = k + 1 ∧
      ((jobObservations now job (processVideoBatch payload sched ok errOf ts).events).getD
          (k + 1) job).progress =
        min 99 (jsRound ((k + 1) * 100) (batchTotalVariants payload))) := by
  obtain ⟨n, hn, hev⟩ := processVideoBatch_events payload sched ok errOf ts hperm
  have hlen : (processVideoBatch payload sched ok errOf ts).events.length = n := by
    rw [hev]; simp
  constructor
  · rw [hlen, hev]
  · intro k hk
    rw [hlen] at hk
    have hobs := jobObservations_eq now job (processVideoBatch payload sched ok errOf ts).events
    rw [hobs, List.getD_cons_succ]
    have hget : ((processVideoBatch payload sched ok errOf ts).events.map
        (applyProgressEvent now (pickJobForProcessing now job))).getD k job =
        applyProgressEvent now (pickJobForProcessing now job)
          (k + 1, batchTotalVariants payload) := by
      rw [List.getD_eq_getElem?_getD, List.getElem?_map, hev, List.getElem?_map,
        List.getElem?_range hk]
      rfl
    rw [hget]
    exact ⟨rfl, rfl⟩

/-- Witness for the amended C1 theorem: applied to a concrete two-template
payload under the in-order completion schedule. -/
theorem result_order_is_completion_order_witness :
    (processVideoBatch samplePayloadTwo
        (fun _ => [TemplateVariant.vertical, TemplateVariant.square])
        (fun _ _ => true) (fun _ _ => "") (fun _ => 7)).outcome =
      Except.ok ((List.enumFrom 0 samplePayloadTwo.videos).flatMap (fun p =>
        ((fun _ : Nat => [TemplateVariant.vertical, TemplateVariant.square]) p.1).map
          (fun v => mkGeneratedResult v p.2 ((fun _ : Nat => 7) p.1)))) :=
  (result_order_is_completion_order samplePayloadTwo
    (fun _ => [TemplateVariant.vertical, TemplateVariant.square])
    (fun _ _ => true) (fun _ _ => "") (fun _ => 7)
    (by decide) (by decide) (fun _ _ => rfl)
    (fun _ => (by decide :
      List.Perm [TemplateVariant.vertical, TemplateVariant.square]
        (presentSlots samplePayloadTwo.templates)))).1

/-- Witness for the amended C3 theorem: applied to a concrete one-template
payload. -/
theorem metrics_bounded_and_total_set_after_first_event_witness :
    (∀ s ∈ jobObservations 5 (freshJobRecord "job-1" "anon_a" 0 samplePayloadOne)
        (processVideoBatch samplePayloadOne (fun _ => [TemplateVariant.vertical])
          (fun _ _ => true) (fun _ _ => "") (fun _ => 0)).events,
        s.metrics.completedVariants ≤ s.metrics.totalVariants) ∧
    (∀ s ∈ (jobObservations 5 (freshJobRecord "job-1" "anon_a" 0 samplePayloadOne)
        (processVideoBatch samplePayloadOne (fun _ => [TemplateVariant.vertical])
          (fun _ _ => true) (fun _ _ => "") (fun _ => 0)).events).tail,
        s.metrics.totalVariants = batchTotalVariants samplePayloadOne) :=
  metrics_bounded_and_total_set_after_first_event samplePayloadOne
    (fun _ => [TemplateVariant.vertical]) (fun _ _ => true) (fun _ _ => "") (fun _ => 0)
    5 (freshJobRecord "job-1" "anon_a" 0 samplePayloadOne)
    (fun _ => (by decide :
      List.Perm [TemplateVariant.vertical] (presentSlots samplePayloadOne.templates)))

/-- Witness for the amended C4 theorem: after the first (and only) settled
render of a one-template payload the job shows completedVariants = 1 and the
progress formula value. -/
theorem progress_increment_per_settled_render_witness :
    ((jobObservations 5 (freshJobRecord "job-1" "anon_a" 0 samplePayloadOne)
        (processVideoBatch samplePayloadOne (fun _ => [TemplateVariant.vertical])
          (fun _ _ => true) (fun _ _ => "") (fun _ => 0)).events).getD 1
        (freshJobRecord "job-1" "anon_a" 0 samplePayloadOne)).metrics.completedVariants =
      0 + 1 ∧
    ((jobObservations 5 (freshJobRecord "job-1" "anon_a" 0 samplePayloadOne)
        (processVideoBatch samplePayloadOne (fun _ => [TemplateVariant.vertical])
          (fun _ _ => true) (fun _ _ => "") (fun _ => 0)).events).getD 1
        (freshJobRecord "job-1" "anon_a" 0 samplePayloadOne)).progress =
      min 99 (jsRound ((0 + 1) * 100) (batchTotalVariants samplePayloadOne)) :=
  (progress_increment_per_settled_render samplePayloadOne
    (fun _ => [TemplateVariant.vertical]) (fun _ _ => true) (fun _ _ => "") (fun _ => 0)
    5 (freshJobRecord "job-1" "anon_a" 0 samplePayloadOne)
    (fun _ => (by decide :
      List.Perm [TemplateVariant.vertical] (presentSlots samplePayloadOne.templates)))).2 0
    (by decide)

/-! ### The queue state and its operations (job-queue.ts)

The mutable module state `queueState` becomes an explicit record, and each
exported function becomes a state transformer taking the current time. The
promise `activeWorkerPromise` is modelled by a flag saying whether a worker
promise is in flight; starting a worker also runs the synchronous prefix of
`runQueueWorker`, which sets `queueWorkerActive`. -/

/-- Fallback estimate for a job duration: two minutes in milliseconds. -/
def DEFAULT_JOB_DURATION_MS : Nat := 2 * 60 * 1000

/-- Bound on the ring of recent duration samples. -/
def RECENT_DURATION_SAMPLE_LIMIT : Nat := 20

/-- Minimal stall timeout: three minutes in milliseconds. -/
def MIN_STALLED_JOB_TIMEOUT_MS : Nat := 3 * 60 * 1000

/-- The stall timeout is the average duration times this factor. -/
def STALLED_JOB_TIMEOUT_FACTOR : Nat := 4

/-- Consecutive stalls that open the circuit breaker. -/
def CIRCUIT_BREAKER_FAILURE_THRESHOLD : Nat := 2

/-- Cooldown of the circuit breaker: sixty seconds in milliseconds. -/
def CIRCUIT_BREAKER_COOLDOWN_MS : Nat := 60 * 1000

/-- The module state `queueState` of job-queue.ts, with `jobStore` as an
insertion-ordered association list and `activeWorkerPromise` as a flag. -/
structure QState where
  jobs : List (String × MJob)
  pendingQueue : List String
  queueWorkerActive : Bool
  currentlyProcessingJob : Option String
  recentDurations : List Nat
  averageDurationMs : Nat
  consecutiveStalledJobs : Nat
  circuitBreakerOpenedAt : Option Nat
  workerGeneration : Nat
  activeWorkerPromise : Bool
deriving DecidableEq, Repr

/-- Lookup in the job store (`jobStore.get`): first record with the key. -/
def storeGet : List (String × MJob) → String → Option MJob
  | [], _ => none
  | p :: rest, id => if p.1 = id then some p.2 else storeGet rest id

/-- In-place update of an existing key in the job store. -/
def storeSet : List (String × MJob) → String → MJob → List (String × MJob)
  | [], _, _ => []
  | p :: rest, id, j => (if p.1 = id then (id, j) else p) :: storeSet rest id j

/-- computeStalledJobTimeoutMs: the larger of four times the rolling average
and the three-minute floor. -/
def computeStalledJobTimeoutMs (s : QState) : Nat :=
  max (s.averageDurationMs * STALLED_JOB_TIMEOUT_FACTOR) MIN_STALLED_JOB_TIMEOUT_MS

/-- openCircuitBreaker: records the opening time. -/
def openCircuitBreaker (now : Nat) (s : QState) : QState :=
  { s with circuitBreakerOpenedAt := some now }

/-- isCircuitBreakerOpen: open while the cooldown since opening has not
elapsed; once it has, the breaker state is reset (resetCircuitBreaker) and
the answer is false. -/
def isCircuitBreakerOpen (now : Nat) (s : QState) : Bool × QState :=
  match s.circuitBreakerOpenedAt with
  | none => (false, s)
  | some openedAt =>
      if now - openedAt ≥ CIRCUIT_BREAKER_COOLDOWN_MS then
        (false, { s with consecutiveStalledJobs := 0, circuitBreakerOpenedAt := none })
      else (true, s)

/-- invalidateActiveWorker: bumps the generation, clears the worker flags and
the processing pointer, and drops the worker promise. -/
def invalidateActiveWorker (s : QState) : QState :=
  { s with
    workerGeneration := s.workerGeneration + 1
    queueWorkerActive := false
    currentlyProcessingJob := none
    activeWorkerPromise := false }

/-- recordJobDuration: pushes the duration into the bounded sample ring and
recomputes the rounded average, floored at a quarter of the default. -/
def recordJobDuration (s : QState) (job : MJob) : QState :=
  match job.startedAt, job.finishedAt with
  | some st, some fin =>
      if st = 0 ∨ fin = 0 then s
      else
        let duration := fin - st
        if duration = 0 then s
        else
          let ds0 := s.recentDurations ++ [duration]
          let ds := if ds0.length > RECENT_DURATION_SAMPLE_LIMIT then ds0.tail else ds0
          let sum := ds.foldl (fun a b => a + b) 0
          { s with
            recentDurations := ds
            averageDurationMs := max (jsRound sum ds.length) (DEFAULT_JOB_DURATION_MS / 4) }
  | _, _ => s

/-- failStalledJobIfNeeded: fails the currently processing job when its
elapsed time reaches the stall timeout; below the timeout nothing changes.
Returns whether a stalled job was cleared. -/
def failStalledJobIfNeeded (now : Nat) (s : QState) : Bool × QState :=
  match s.currentlyProcessingJob with
  | none => (false, s)
  | some stalledJobId =>
    match storeGet s.jobs stalledJobId with
    | none => (false, s)
    | some job =>
      if job.status ≠ JobStatus.processing then (false, s)
      else
        match job.startedAt with
        | none => (false, s)
        | some startedAt =>
          let timeoutMs := computeStalledJobTimeoutMs s
          let elapsedMs := now - startedAt
          if elapsedMs < timeoutMs then (false, s)
          else
            let timeoutSeconds := jsRound timeoutMs 1000
            let failedJob := { job with
              status := JobStatus.failed
              error := some ("任务执行超过 " ++ toString timeoutSeconds ++
                " 秒，系统自动终止以避免阻塞")
              message := some "任务执行超时，系统已自动终止"
              progress := min job.progress 99
              updatedAt := now
              finishedAt := some now }
            let s1 := { s with jobs := storeSet s.jobs stalledJobId failedJob }
            let s2 := recordJobDuration s1 failedJob
            let s3 := { s2 with
              currentlyProcessingJob := none
              consecutiveStalledJobs := s2.consecutiveStalledJobs + 1 }
            let s4 := invalidateActiveWorker s3
            let s5 := if s4.consecutiveStalledJobs ≥ CIRCUIT_BREAKER_FAILURE_THRESHOLD
              then openCircuitBreaker now s4 else s4
            (true, s5)

/-- startQueueWorkerIfNeeded: launches a worker run (bumping the generation
and running the synchronous prefix of runQueueWorker) unless the queue is
idle and empty, or a worker promise is already in flight. The Boolean says
whether a new worker run was launched. -/
def startQueueWorkerIfNeeded (s : QState) : QState × Bool :=
  if s.pendingQueue.length = 0 ∧ s.queueWorkerActive = false then (s, false)
  else if s.activeWorkerPromise then (s, false)
  else
    ({ s with
      workerGeneration := s.workerGeneration + 1
      activeWorkerPromise := true
      queueWorkerActive := true }, true)

/-- enqueueJob: rejects a blank owner, otherwise stores a fresh pending
record, appends its id to the queue, and calls startQueueWorkerIfNeeded
directly, with no circuit-breaker check. -/
def enqueueJob (now : Nat) (jobId : String) (payload : VideoProcessorPayload)
    (ownerId : String) (s : QState) : Option (QState × Bool) :=
  if jsTrim ownerId = "" then none
  else
    let s1 := { s with
      jobs := s.jobs ++ [(jobId, freshJobRecord jobId (jsTrim ownerId) now payload)]
      pendingQueue := s.pendingQueue ++ [jobId] }
    some (startQueueWorkerIfNeeded s1)

/-- ensureQueueWorkerRunning: clears a stalled job, then declines to start
the worker while the circuit breaker is open, otherwise delegates to
startQueueWorkerIfNeeded. -/
def ensureQueueWorkerRunning (now : Nat) (s : QState) : QState × Bool :=
  let cleared := failStalledJobIfNeeded now s
  let breaker := isCircuitBreakerOpen now cleared.2
  if breaker.1 then (breaker.2, false)
  else startQueueWorkerIfNeeded breaker.2

/-- getOwnerActiveJobCount: pending or processing jobs of one owner. -/
def getOwnerActiveJobCount (jobs : List (String × MJob)) (ownerId : String) : Nat :=
  if ownerId = "" then 0
  else (jobs.filter (fun p => p.2.ownerId = ownerId ∧
    (p.2.status = JobStatus.pending ∨ p.2.status = JobStatus.processing))).length

/-! ### Theorems about the circuit breaker and the supervisor -/

/-- Queue state right after two consecutive stalls opened the breaker at
time 1000000: no worker in flight, empty queue, breaker open. -/
def breakerOpenState : QState where
  jobs := []
  pendingQueue := []
  queueWorkerActive := false
  currentlyProcessingJob := none
  recentDurations := [180000, 180000]
  averageDurationMs := 180000
  consecutiveStalledJobs := 2
  circuitBreakerOpenedAt := some 1000000
  workerGeneration := 5
  activeWorkerPromise := false

/-- C2: thirty seconds into the sixty-second cooldown the breaker is still
open, yet an enqueue does start a new worker run, because enqueueJob calls
startQueueWorkerIfNeeded directly without the circuit-breaker check; only
the separate ensureQueueWorkerRunning path declines to start one. -/
theorem enqueue_starts_worker_while_breaker_open :
    (isCircuitBreakerOpen 1030000 breakerOpenState).1 = true ∧
    (enqueueJob 1030000 "job-3" samplePayloadOne "anon_a" breakerOpenState).map
      (fun r => r.2) = some true ∧
    (enqueueJob 1030000 "job-3" samplePayloadOne "anon_a" breakerOpenState).map
      (fun r => r.1.queueWorkerActive) = some true ∧
    (ensureQueueWorkerRunning 1030000 breakerOpenState).2 = false := by decide

/-- C7: the stall timeout is max(average x 4, 3 minutes); a currently
processing job whose elapsed time is below that timeout is left untouched by
the stuck-job check, and the check clears a job only when the elapsed time
has reached the timeout. -/
theorem supervisor_no_false_positive (now : Nat) (s : QState) :
    computeStalledJobTimeoutMs s = max (s.averageDurationMs * 4) (3 * 60 * 1000) ∧
    (∀ id job startedAt, s.currentlyProcessingJob = some id →
      storeGet s.jobs id = some job → job.status = JobStatus.processing →
      job.startedAt = some startedAt → now - startedAt < computeStalledJobTimeoutMs s →
      failStalledJobIfNeeded now s = (false, s)) ∧
    ((failStalledJobIfNeeded now s).1 = true →
      ∃ id job startedAt, s.currentlyProcessingJob = some id ∧
        storeGet s.jobs id = some job ∧ job.status = JobStatus.processing ∧
        job.startedAt = some startedAt ∧
        computeStalledJobTimeoutMs s ≤ now - startedAt) := by
  refine ⟨rfl, ?_, ?_⟩
  · intro id job startedAt hcur hget hstatus hstart hlt
    simp only [failStalledJobIfNeeded, hcur, hget]
    rw [if_neg (by simp [hstatus])]
    simp only [hstart]
    rw [if_pos hlt]
  · intro htrue
    unfold failStalledJobIfNeeded at htrue
    split at htrue
    · simp at htrue
    · rename_i id hcur
      split at htrue
      · simp at htrue
      · rename_i job hget
        split at htrue
        · simp at htrue
        · rename_i hstatus
          split at htrue
          · simp at htrue
          · rename_i st hstart
            dsimp only at htrue
            split at htrue
            · simp at htrue
            · rename_i hlt
              exact ⟨id, job, st, hcur, hget, by simpa using hstatus, hstart, by omega⟩

/-- A processing job picked at time 1000 for the supervisor witness. -/
def processingJobRecord : MJob :=
  { freshJobRecord "job-p" "anon_b" 0 samplePayloadOne with
    status := JobStatus.processing
    startedAt := some 1000
    progress := 5 }

/-- Queue state with the witness job processing, well below the timeout. -/
def supervisorWitnessState : QState where
  jobs := [("job-p", processingJobRecord)]
  pendingQueue := []
  queueWorkerActive := true
  currentlyProcessingJob := some "job-p"
  recentDurations := []
  averageDurationMs := 120000
  consecutiveStalledJobs := 0
  circuitBreakerOpenedAt := none
  workerGeneration := 1
  activeWorkerPromise := true

/-- Witness for C7: nine seconds of elapsed time is below the 480-second
timeout, so the stuck-job check leaves the state untouched. -/
theorem supervisor_no_false_positive_witness :
    failStalledJobIfNeeded 10000 supervisorWitnessState = (false, supervisorWitnessState) :=
  (supervisor_no_false_positive 10000 supervisorWitnessState).2.1 "job-p"
    processingJobRecord 1000 (by decide) (by decide) (by decide) (by decide) (by decide)

/-! ### The job lifecycle as a step machine (runQueueWorker, supervisor)

Each mutation site of job records in job-queue.ts becomes one event. The
enqueue step carries the freshness of the generated UUID as a guard; the
finish steps carry the worker generation captured by the running worker and
the guards of lines 383 and 393 of job-queue.ts; the finalize step is the
finally block of the worker loop. -/

/-- Worker mutations at the moment of picking the queue head. -/
def pickNextJob (now : Nat) (s : QState) : QState :=
  match s.pendingQueue with
  | [] => s
  | nextJobId :: rest =>
    let s1 := { s with pendingQueue := rest }
    match storeGet s1.jobs nextJobId with
    | none => s1
    | some job =>
      { s1 with
        currentlyProcessingJob := some nextJobId
        jobs := storeSet s1.jobs nextJobId (pickJobForProcessing now job) }

/-- The onProgress callback of the worker, applied to the job record the
worker closure holds. -/
def applyOnProgress (now : Nat) (id : String) (completed total : Nat) (s : QState) : QState :=
  match storeGet s.jobs id with
  | none => s
  | some job =>
      { s with jobs := storeSet s.jobs id (applyProgressEvent now job (completed, total)) }

/-- The completion write of the worker, fenced by the generation check and
the job still being in processing state. -/
def finishJobSuccess (now gen : Nat) (id : String) (videos : List GeneratedVideoResult)
    (msg : String) (s : QState) : QState :=
  match storeGet s.jobs id with
  | none => s
  | some job =>
      if gen = s.workerGeneration ∧ job.status = JobStatus.processing then
        { s with jobs := storeSet s.jobs id { job with
            status := JobStatus.completed
            progress := 100
            result := some videos
            message := some msg
            updatedAt := now } }
      else s

/-- The failure write of the worker, fenced in the same way. -/
def finishJobFailure (now gen : Nat) (id errMsg : String) (s : QState) : QState :=
  match storeGet s.jobs id with
  | none => s
  | some job =>
      if gen = s.workerGeneration ∧ job.status = JobStatus.processing then
        { s with jobs := storeSet s.jobs id { job with
            status := JobStatus.failed
            error := some errMsg
            message := some "视频处理失败"
            updatedAt := now } }
      else s

/-- The finally block of the worker loop: stamps finishedAt once, records the
duration, clears the processing pointer, and resets the breaker when it did
the finalization. The job status is not touched. -/
def workerFinalize (now : Nat) (id : String) (s : QState) : QState :=
  match storeGet s.jobs id with
  | none => { s with currentlyProcessingJob := none }
  | some job =>
      if job.finishedAt = none then
        let job2 := { job with updatedAt := now, finishedAt := some now }
        let s1 := { s with jobs := storeSet s.jobs id job2 }
        let s2 := recordJobDuration s1 job2
        { s2 with
          currentlyProcessingJob := none
          consecutiveStalledJobs := 0
          circuitBreakerOpenedAt := none }
      else { s with currentlyProcessingJob := none }

/-- One observable operation on the queue state. -/
inductive QEvent where
  | enqueue (now : Nat) (id ownerId : String) (payload : VideoProcessorPayload)
  | pick (now : Nat)
  | progressUpdate (now : Nat) (id : String) (completed total : Nat)
  | finishSuccess (now gen : Nat) (id : String) (videos : List GeneratedVideoResult)
      (msg : String)
  | finishFailure (now gen : Nat) (id errMsg : String)
  | finalize (now : Nat) (id : String)
  | supervise (now : Nat)

/-- Step function of the queue machine. The enqueue step applies only for a
fresh id, reflecting the freshness of randomUUID. -/
def qstep : QEvent → QState → QState
  | .enqueue now id ownerId payload, s =>
      if storeGet s.jobs id = none then
        match enqueueJob now id payload ownerId s with
        | some r => r.1
        | none => s
      else s
  | .pick now, s => pickNextJob now s
  | .progressUpdate now id completed total, s => applyOnProgress now id completed total s
  | .finishSuccess now gen id videos msg, s => finishJobSuccess now gen id videos msg s
  | .finishFailure now gen id errMsg, s => finishJobFailure now gen id errMsg s
  | .finalize now id, s => workerFinalize now id s
  | .supervise now, s => (failStalledJobIfNeeded now s).2

/-- Run of the queue machine over a list of events. -/
def qrun (events : List QEvent) (s : QState) : QState :=
  events.foldl (fun st e => qstep e st) s

/-- The queue invariant: the pending queue has no duplicate ids and every id
in it resolves to a record in pending state. -/
def QInv (s : QState) : Prop :=
  s.pendingQueue.Nodup ∧
  ∀ id ∈ s.pendingQueue, ∃ j, storeGet s.jobs id = some j ∧ j.status = JobStatus.pending

/-- Helper: an in-place update leaves other keys untouched. -/
theorem storeGet_storeSet_ne (jobs : List (String × MJob)) {id id2 : String} (j : MJob)
    (h : id2 ≠ id) : storeGet (storeSet jobs id j) id2 = storeGet jobs id2 := by
  induction jobs with
  | nil => rfl
  | cons p rest ih =>
      by_cases hk : p.1 = id
      · have h1 : ¬ id = id2 := fun hh => h hh.symm
        have h2 : ¬ p.1 = id2 := by rw [hk]; exact h1
        simp [storeGet, storeSet, hk, h1, h2, ih]
      · by_cases h2 : p.1 = id2
        · simp [storeGet, storeSet, hk, h2, h]
        · simp [storeGet, storeSet, hk, h2, ih]

/-- Helper: an in-place update of an existing key is visible. -/
theorem storeGet_storeSet_self (jobs : List (String × MJob)) {id : String} (j : MJob)
    {x : MJob} (h : storeGet jobs id = some x) :
    storeGet (storeSet jobs id j) id = some j := by
  induction jobs with
  | nil => simp [storeGet] at h
  | cons p rest ih =>
      by_cases hk : p.1 = id
      · simp [storeGet, storeSet, hk]
      · simp only [storeGet, storeSet, hk, if_neg hk, if_false] at h ⊢
        exact ih h

/-- Helper: lookup survives appending records on the right. -/
theorem storeGet_append_of_some {jobs : List (String × MJob)} {id : String} {j : MJob}
    (tail : List (String × MJob)) (h : storeGet jobs id = some j) :
    storeGet (jobs ++ tail) id = some j := by
  induction jobs with
  | nil => simp [storeGet] at h
  | cons p rest ih =>
      by_cases hk : p.1 = id
      · simp only [storeGet, hk, if_pos, if_true] at h
        simpa [storeGet, hk] using h
      · simp only [storeGet, hk, if_neg, if_false] at h
        simpa [storeGet, hk] using ih h

/-- Helper: appending a record for a fresh id makes it visible. -/
theorem storeGet_append_fresh {jobs : List (String × MJob)} {id : String}
    (j : MJob) (h : storeGet jobs id = none) :
    storeGet (jobs ++ [(id, j)]) id = some j := by
  induction jobs with
  | nil => simp [storeGet]
  | cons p rest ih =>
      by_cases hk : p.1 = id
      · simp [storeGet, hk] at h
      · simp only [storeGet, hk, if_neg, if_false] at h
        simpa [storeGet, hk] using ih h

/-- Helper: starting the worker changes neither the store nor the queue. -/
theorem startQueueWorkerIfNeeded_preserves (s : QState) :
    (startQueueWorkerIfNeeded s).1.jobs = s.jobs ∧
    (startQueueWorkerIfNeeded s).1.pendingQueue = s.pendingQueue := by
  unfold startQueueWorkerIfNeeded
  split
  · exact ⟨rfl, rfl⟩
  · split
    · exact ⟨rfl, rfl⟩
    · exact ⟨rfl, rfl⟩

/-- Helper: recording a duration changes neither the store nor the queue. -/
theorem recordJobDuration_preserves (s : QState) (job : MJob) :
    (recordJobDuration s job).jobs = s.jobs ∧
    (recordJobDuration s job).pendingQueue = s.pendingQueue := by
  unfold recordJobDuration
  split
  · split
    · exact ⟨rfl, rfl⟩
    · dsimp only
      split
      · exact ⟨rfl, rfl⟩
      · exact ⟨rfl, rfl⟩
  · exact ⟨rfl, rfl⟩

/-- Helper: the stuck-job check leaves the queue untouched and either leaves
the store untouched or replaces the record of the currently processing job,
which was in processing state, by a failed record. -/
theorem failStalledJobIfNeeded_characterization (now : Nat) (s : QState) :
    (failStalledJobIfNeeded now s).2.pendingQueue = s.pendingQueue ∧
    ((failStalledJobIfNeeded now s).2.jobs = s.jobs ∨
      ∃ sid job, s.currentlyProcessingJob = some sid ∧
        storeGet s.jobs sid = some job ∧ job.status = JobStatus.processing ∧
        ∀ id2, id2 ≠ sid →
          storeGet (failStalledJobIfNeeded now s).2.jobs id2 = storeGet s.jobs id2) := by
  unfold failStalledJobIfNeeded
  split
  · exact ⟨rfl, Or.inl rfl⟩
  · rename_i sid hcur
    split
    · exact ⟨rfl, Or.inl rfl⟩
    · rename_i job hget
      split
      · exact ⟨rfl, Or.inl rfl⟩
      · rename_i hstatus
        split
        · exact ⟨rfl, Or.inl rfl⟩
        · rename_i st hstart
          dsimp only
          split
          · exact ⟨rfl, Or.inl rfl⟩
          · rename_i hlt
            constructor
            · split <;>
                simp [openCircuitBreaker, invalidateActiveWorker,
                  (recordJobDuration_preserves _ _).2]
            · refine Or.inr ⟨sid, job, hcur, hget, by simpa using hstatus, ?_⟩
              intro id2 hne
              split <;>
                · simp only [openCircuitBreaker, invalidateActiveWorker,
                    (recordJobDuration_preserves _ _).1]
                  exact storeGet_storeSet_ne _ _ hne

/-- Helper: a single step of the queue machine never moves a job out of a
terminal status. -/
theorem qstep_preserves_terminal (e : QEvent) (s : QState) (hInv : QInv s)
    (id : String) (job : MJob) (hget : storeGet s.jobs id = some job)
    (hterm : job.status = JobStatus.completed ∨ job.status = JobStatus.failed) :
    ∃ job2, storeGet (qstep e s).jobs id = some job2 ∧ job2.status = job.status := by
  cases e with
  | enqueue now id0 owner payload =>
      simp only [qstep]
      split
      · rename_i hfresh
        by_cases howner : jsTrim owner = ""
        · simp only [enqueueJob, howner, if_true]
          exact ⟨job, hget, rfl⟩
        · simp only [enqueueJob, howner, if_false]
          refine ⟨job, ?_, rfl⟩
          rw [(startQueueWorkerIfNeeded_preserves _).1]
          exact storeGet_append_of_some _ hget
      · exact ⟨job, hget, rfl⟩
  | pick now =>
      simp only [qstep]
      unfold pickNextJob
      split
      · exact ⟨job, hget, rfl⟩
      · rename_i nextJobId rest hqueue
        dsimp only
        split
        · exact ⟨job, hget, rfl⟩
        · rename_i j0 hget0
          have hmemq : nextJobId ∈ s.pendingQueue := by
            rw [hqueue]
            exact List.mem_cons_self nextJobId rest
          obtain ⟨jp, hjp, hjps⟩ := hInv.2 nextJobId hmemq
          have hne : id ≠ nextJobId := by
            intro hh
            subst hh
            rw [hget] at hjp
            obtain rfl := Option.some.inj hjp
            rcases hterm with h | h <;> rw [h] at hjps <;> cases hjps
          refine ⟨job, ?_, rfl⟩
          dsimp only
          rw [storeGet_storeSet_ne _ _ hne]
          exact hget
  | progressUpdate now tid c t =>
      simp only [qstep]
      unfold applyOnProgress
      split
      · exact ⟨job, hget, rfl⟩
      · rename_i j0 hget0
        by_cases hne : id = tid
        · subst hne
          rw [hget] at hget0
          obtain rfl := Option.some.inj hget0
          exact ⟨applyProgressEvent now job (c, t),
            storeGet_storeSet_self _ _ hget, rfl⟩
        · exact ⟨job, by dsimp only; rw [storeGet_storeSet_ne _ _ hne]; exact hget, rfl⟩
  | finishSuccess now gen tid videos msg =>
      simp only [qstep]
      unfold finishJobSuccess
      split
      · exact ⟨job, hget, rfl⟩
      · rename_i j0 hget0
        split
        · rename_i hguard
          by_cases hne : id = tid
          · subst hne
            rw [hget] at hget0
            obtain rfl := Option.some.inj hget0
            have hc := hguard.2
            rcases hterm with h | h <;> rw [h] at hc <;> cases hc
          · exact ⟨job, by dsimp only; rw [storeGet_storeSet_ne _ _ hne]; exact hget, rfl⟩
        · exact ⟨job, hget, rfl⟩
  | finishFailure now gen tid errMsg =>
      simp only [qstep]
      unfold finishJobFailure
      split
      · exact ⟨job, hget, rfl⟩
      · rename_i j0 hget0
        split
        · rename_i hguard
          by_cases hne : id = tid
          · subst hne
            rw [hget] at hget0
            obtain rfl := Option.some.inj hget0
            have hc := hguard.2
            rcases hterm with h | h <;> rw [h] at hc <;> cases hc
          · exact ⟨job, by dsimp only; rw [storeGet_storeSet_ne _ _ hne]; exact hget, rfl⟩
        · exact ⟨job, hget, rfl⟩
  | finalize now tid =>
      simp only [qstep]
      unfold workerFinalize
      split
      · exact ⟨job, hget, rfl⟩
      · rename_i j0 hget0
        split
        · dsimp only
          by_cases hne : id = tid
          · subst hne
            rw [hget] at hget0
            obtain rfl := Option.some.inj hget0
            refine ⟨{ job with updatedAt := now, finishedAt := some now }, ?_, rfl⟩
            rw [(recordJobDuration_preserves _ _).1]
            exact storeGet_storeSet_self _ _ hget
          · refine ⟨job, ?_, rfl⟩
            rw [(recordJobDuration_preserves _ _).1]
            dsimp only
            rw [storeGet_storeSet_ne _ _ hne]
            exact hget
        · exact ⟨job, hget, rfl⟩
  | supervise now =>
      obtain ⟨hq, hj⟩ := failStalledJobIfNeeded_characterization now s
      rcases hj with h | ⟨sid, j0, hcur, hget0, hst0, hother⟩
      · exact ⟨job, by simp only [qstep]; rw [h]; exact hget, rfl⟩
      · by_cases hne : id = sid
        · subst hne
          rw [hget] at hget0
          obtain rfl := Option.some.inj hget0
          rcases hterm with h | h <;> rw [h] at hst0 <;> cases hst0
        · exact ⟨job, by simp only [qstep]; rw [hother id hne]; exact hget, rfl⟩

/-- Helper: every step of the queue machine preserves the queue invariant. -/
theorem qstep_preserves_inv (e : QEvent) (s : QState) (hInv : QInv s) : QInv (qstep e s) := by
  obtain ⟨hnodup, hpend⟩ := hInv
  cases e with
  | enqueue now id0 owner payload =>
      simp only [qstep]
      split
      · rename_i hfresh
        by_cases howner : jsTrim owner = ""
        · simp only [enqueueJob, howner, if_true]
          exact ⟨hnodup, hpend⟩
        · simp only [enqueueJob, howner, if_false]
          constructor
          · rw [(startQueueWorkerIfNeeded_preserves _).2]
            have hid0 : id0 ∉ s.pendingQueue := by
              intro hmem
              obtain ⟨j, hj, _⟩ := hpend id0 hmem
              rw [hfresh] at hj
              cases hj
            exact List.Nodup.append hnodup (by simp)
              (by simpa [List.disjoint_singleton] using hid0)
          · intro id2 hmem
            rw [(startQueueWorkerIfNeeded_preserves _).2] at hmem
            rw [(startQueueWorkerIfNeeded_preserves _).1]
            dsimp only at hmem ⊢
            rcases List.mem_append.mp hmem with hmem2 | hmem2
            · obtain ⟨j, hj, hjs⟩ := hpend id2 hmem2
              exact ⟨j, storeGet_append_of_some _ hj, hjs⟩
            · have hid2 : id2 = id0 := by simpa using hmem2
              subst hid2
              exact ⟨_, storeGet_append_fresh _ hfresh, rfl⟩
      · exact ⟨hnodup, hpend⟩
  | pick now =>
      simp only [qstep]
      unfold pickNextJob
      split
      · exact ⟨hnodup, hpend⟩
      · rename_i nextJobId rest hqueue
        have hnodup2 : (nextJobId :: rest).Nodup := hqueue ▸ hnodup
        dsimp only
        split
        · refine ⟨hnodup2.of_cons, ?_⟩
          intro id2 hmem
          exact hpend id2 (by rw [hqueue]; exact List.mem_cons_of_mem _ hmem)
        · rename_i j0 hget0
          refine ⟨hnodup2.of_cons, ?_⟩
          intro id2 hmem
          dsimp only at hmem ⊢
          have hne : id2 ≠ nextJobId := by
            intro hh
            subst hh
            exact (List.nodup_cons.mp hnodup2).1 hmem
          rw [storeGet_storeSet_ne _ _ hne]
          exact hpend id2 (by rw [hqueue]; exact List.mem_cons_of_mem _ hmem)
  | progressUpdate now tid c t =>
      simp only [qstep]
      unfold applyOnProgress
      split
      · exact ⟨hnodup, hpend⟩
      · rename_i j0 hget0
        refine ⟨hnodup, ?_⟩
        intro id2 hmem
        obtain ⟨j, hj, hjs⟩ := hpend id2 hmem
        by_cases hne : id2 = tid
        · subst hne
          rw [hget0] at hj
          obtain rfl := Option.some.inj hj
          exact ⟨applyProgressEvent now j0 (c, t), storeGet_storeSet_self _ _ hget0, hjs⟩
        · exact ⟨j, by dsimp only; rw [storeGet_storeSet_ne _ _ hne]; exact hj, hjs⟩
  | finishSuccess now gen tid videos msg =>
      simp only [qstep]
      unfold finishJobSuccess
      split
      · exact ⟨hnodup, hpend⟩
      · rename_i j0 hget0
        split
        · rename_i hguard
          refine ⟨hnodup, ?_⟩
          intro id2 hmem
          obtain ⟨j, hj, hjs⟩ := hpend id2 hmem
          by_cases hne : id2 = tid
          · subst hne
            rw [hget0] at hj
            obtain rfl := Option.some.inj hj
            have hc := hguard.2
            rw [hjs] at hc
            cases hc
          · exact ⟨j, by dsimp only; rw [storeGet_storeSet_ne _ _ hne]; exact hj, hjs⟩
        · exact ⟨hnodup, hpend⟩
  | finishFailure now gen tid errMsg =>
      simp only [qstep]
      unfold finishJobFailure
      split
      · exact ⟨hnodup, hpend⟩
      · rename_i j0 hget0
        split
        · rename_i hguard
          refine ⟨hnodup, ?_⟩
          intro id2 hmem
          obtain ⟨j, hj, hjs⟩ := hpend id2 hmem
          by_cases hne : id2 = tid
          · subst hne
            rw [hget0] at hj
            obtain rfl := Option.some.inj hj
            have hc := hguard.2
            rw [hjs] at hc
            cases hc
          · exact ⟨j, by dsimp only; rw [storeGet_storeSet_ne _ _ hne]; exact hj, hjs⟩
        · exact ⟨hnodup, hpend⟩
  | finalize now tid =>
      simp only [qstep]
      unfold workerFinalize
      split
      · exact ⟨hnodup, hpend⟩
      · rename_i j0 hget0
        split
        · dsimp only
          constructor
          · rw [(recordJobDuration_preserves _ _).2]
            exact hnodup
          · intro id2 hmem
            rw [(recordJobDuration_preserves _ _).2] at hmem
            dsimp only at hmem
            obtain ⟨j, hj, hjs⟩ := hpend id2 hmem
            rw [(recordJobDuration_preserves _ _).1]
            dsimp only
            by_cases hne : id2 = tid
            · subst hne
              rw [hget0] at hj
              obtain rfl := Option.some.inj hj
              exact ⟨{ j0 with updatedAt := now, finishedAt := some now },
                storeGet_storeSet_self _ _ hget0, hjs⟩
            · exact ⟨j, by rw [storeGet_storeSet_ne _ _ hne]; exact hj, hjs⟩
        · exact ⟨hnodup, hpend⟩
  | supervise now =>
      obtain ⟨hq, hj⟩ := failStalledJobIfNeeded_characterization now s
      simp only [qstep]
      rcases hj with h | ⟨sid, j0, hcur, hget0, hst0, hother⟩
      · refine ⟨by rw [hq]; exact hnodup, ?_⟩
        intro id2 hmem
        rw [hq] at hmem
        rw [h]
        exact hpend id2 hmem
      · refine ⟨by rw [hq]; exact hnodup, ?_⟩
        intro id2 hmem
        rw [hq] at hmem
        obtain ⟨j, hjg, hjs⟩ := hpend id2 hmem
        by_cases hne : id2 = sid
        · subst hne
          rw [hget0] at hjg
          obtain rfl := Option.some.inj hjg
          rw [hjs] at hst0
          cases hst0
        · exact ⟨j, by rw [hother id2 hne]; exact hjg, hjs⟩

/-- C8: terminal states are sticky. In any state satisfying the queue
invariant, a job whose status is completed or failed keeps exactly that
status across every subsequent sequence of queue operations, including
worker completion and failure writes and supervisor timeouts. -/
theorem terminal_states_are_sticky (events : List QEvent) (s : QState) (hInv : QInv s)
    (id : String) (job : MJob) (hget : storeGet s.jobs id = some job)
    (hterm : job.status = JobStatus.completed ∨ job.status = JobStatus.failed) :
    ∃ job2, storeGet (qrun events s).jobs id = some job2 ∧ job2.status = job.status := by
  induction events generalizing s job with
  | nil => exact ⟨job, hget, rfl⟩
  | cons e rest ih =>
      obtain ⟨j2, hg2, hs2⟩ := qstep_preserves_terminal e s hInv id job hget hterm
      obtain ⟨j3, hg3, hs3⟩ := ih (qstep e s) (qstep_preserves_inv e s hInv) j2 hg2
        (by rw [hs2]; exact hterm)
      exact ⟨j3, by simpa [qrun, List.foldl_cons] using hg3, by rw [hs3, hs2]⟩

/-- A finished job for the stickiness witness. -/
def completedJobRecord : MJob :=
  { freshJobRecord "job-c" "anon_c" 0 samplePayloadOne with
    status := JobStatus.completed
    progress := 100
    startedAt := some 10
    finishedAt := some 50
    result := some [] }

/-- Queue state holding only a completed job. -/
def stickyWitnessState : QState where
  jobs := [("job-c", completedJobRecord)]
  pendingQueue := []
  queueWorkerActive := false
  currentlyProcessingJob := none
  recentDurations := []
  averageDurationMs := 120000
  consecutiveStalledJobs := 0
  circuitBreakerOpenedAt := none
  workerGeneration := 2
  activeWorkerPromise := false

/-- Witness for C8: a completed job survives a late worker failure write and
a supervisor pass with its status intact. -/
theorem terminal_states_are_sticky_witness :
    ∃ job2, storeGet (qrun [QEvent.finishFailure 60 2 "job-c" "late error",
        QEvent.supervise 999999999] stickyWitnessState).jobs "job-c" = some job2 ∧
      job2.status = completedJobRecord.status :=
  terminal_states_are_sticky
    [QEvent.finishFailure 60 2 "job-c" "late error", QEvent.supervise 999999999]
    stickyWitnessState
    ⟨by simp [stickyWitnessState], by intro id h; simp [stickyWitnessState] at h⟩
    "job-c" completedJobRecord (by decide) (Or.inl (by decide))

/-! ### The public snapshot and the status endpoint (job-queue.ts,
job-store.ts, src/app/api/process/[jobId]/route.ts) -/

/-- The public snapshot (`JobSnapshot`). -/
structure JobSnapshot where
  id : String
  status : JobStatus
  progress : Nat
  createdAt : Nat
  updatedAt : Nat
  queuePosition : Nat
  estimatedWaitMs : Nat
  averageJobDurationMs : Nat
  message : Option String
  result : Option (List GeneratedVideoResult)
  error : Option String
  metrics : JobMetrics
deriving DecidableEq, Repr

/-- computeLiveQueuePosition: index in the pending queue plus one when some
job is currently processing; zero for active and terminal states. -/
def computeLiveQueuePosition (s : QState) (record : MJob) : Nat :=
  match record.status with
  | .completed => 0
  | .failed => 0
  | .processing => 0
  | .pending =>
      let jobsAheadInQueue :=
        match s.pendingQueue.findIdx? (fun x => x = record.id) with
        | some i => i
        | none => 0
      let processingPenalty := if s.currentlyProcessingJob.isSome then 1 else 0
      jobsAheadInQueue + processingPenalty

/-- computeEstimatedWaitMs, with the JavaScript float arithmetic carried out
on exact rationals. -/
def computeEstimatedWaitMs (now : Nat) (s : QState) (record : MJob) : Nat :=
  let averageJobDurationMs :=
    if s.averageDurationMs = 0 then DEFAULT_JOB_DURATION_MS else s.averageDurationMs
  match record.status with
  | .completed => 0
  | .failed => 0
  | .processing =>
      match record.startedAt with
      | none => jsRound averageJobDurationMs 2
      | some st =>
          if st = 0 then jsRound averageJobDurationMs 2
          else
            let elapsed := now - st
            if averageJobDurationMs ≤ 10 * (averageJobDurationMs - elapsed) then
              averageJobDurationMs - elapsed
            else jsRound averageJobDurationMs 10
  | .pending => computeLiveQueuePosition s record * averageJobDurationMs

/-- toPublicSnapshot. -/
def toPublicSnapshot (now : Nat) (s : QState) (record : MJob) : JobSnapshot where
  id := record.id
  status := record.status
  progress := record.progress
  createdAt := record.createdAt
  updatedAt := record.updatedAt
  queuePosition := computeLiveQueuePosition s record
  estimatedWaitMs := computeEstimatedWaitMs now s record
  averageJobDurationMs := s.averageDurationMs
  message := record.message
  result := record.result
  error := record.error
  metrics := record.metrics

/-- getJobSnapshot: a lookup in the in-memory table only. -/
def getJobSnapshot (now : Nat) (s : QState) (jobId : String) : Option JobSnapshot :=
  match storeGet s.jobs jobId with
  | none => none
  | some record => some (toPublicSnapshot now s record)

/-- Responses of GET /api/process/jobId. -/
inductive StatusGetResponse where
  | notFound
  | okSnapshot (snap : JobSnapshot) (estimatedWaitSeconds averageJobDurationSeconds : Nat)
deriving DecidableEq, Repr

/-- The GET route handler: it consults only getJobSnapshot and answers 404
when the in-memory table has no record. -/
def handleProcessStatusGet (now : Nat) (s : QState) (jobId : String) : StatusGetResponse :=
  match getJobSnapshot now s jobId with
  | none => StatusGetResponse.notFound
  | some job => StatusGetResponse.okSnapshot job
      (max 0 (jsRound job.estimatedWaitMs 1000))
      (max 1 (jsRound job.averageJobDurationMs 1000))

/-- readJobSnapshotFromStore (job-store.ts): tries the KV cache, then the
blob store, returning the first hit. -/
def readJobSnapshotFromStore (kvStore blobStore : String → Option JobSnapshot)
    (jobId : String) : Option JobSnapshot :=
  match kvStore jobId with
  | some snapshot => some snapshot
  | none => blobStore jobId

/-- Modelled from the spec: "Reads try in-memory first, then KV, then blob,
returning the first hit" - the read order the status query is specified to
follow before answering 404. This composition does not exist in the code:
the route calls getJobSnapshot only, and readJobSnapshotFromStore has no
caller. -/
def specStatusLookup (now : Nat) (s : QState)
    (kvStore blobStore : String → Option JobSnapshot) (jobId : String) :
    Option JobSnapshot :=
  match getJobSnapshot now s jobId with
  | some snapshot => some snapshot
  | none => readJobSnapshotFromStore kvStore blobStore jobId

/-- A fresh queue state of a new serverless instance. -/
def emptyQState : QState where
  jobs := []
  pendingQueue := []
  queueWorkerActive := false
  currentlyProcessingJob := none
  recentDurations := []
  averageDurationMs := DEFAULT_JOB_DURATION_MS
  consecutiveStalledJobs := 0
  circuitBreakerOpenedAt := none
  workerGeneration := 0
  activeWorkerPromise := false

/-- A snapshot persisted in KV by another instance for job-k. -/
def persistedSnapshot : JobSnapshot where
  id := "job-k"
  status := JobStatus.processing
  progress := 47
  createdAt := 100
  updatedAt := 200
  queuePosition := 0
  estimatedWaitMs := 60000
  averageJobDurationMs := 120000
  message := none
  result := none
  error := none
  metrics := { completedVariants := 1, totalVariants := 3 }

/-- A KV cache holding only the snapshot of job-k. -/
def kvOnlyStore : String → Option JobSnapshot :=
  fun jobId => if jobId = "job-k" then some persistedSnapshot else none

/-- C5: the status route answers 404 for a job that is absent from the
in-memory table even though the KV cache holds its snapshot; the KV and blob
fallback readJobSnapshotFromStore exists in the repository but the route
never consults it, unlike the specified memory, KV, blob read order. -/
theorem status_route_404_despite_kv_snapshot :
    handleProcessStatusGet 300 emptyQState "job-k" = StatusGetResponse.notFound ∧
    readJobSnapshotFromStore kvOnlyStore (fun _ => none) "job-k" = some persistedSnapshot ∧
    specStatusLookup 300 emptyQState kvOnlyStore (fun _ => none) "job-k" =
      some persistedSnapshot := by decide

/-! ### The enqueue endpoint and the per-owner cap (node-handler.ts) -/

/-- A remote asset reference in the request body. -/
structure RemoteAssetPayload where
  url : String
  originalName : String
  size : Option Nat
  mimeType : Option String
deriving DecidableEq, Repr

/-- The optional template references of the request body. -/
structure TemplateInputPayload where
  vertical : Option RemoteAssetPayload
  square : Option RemoteAssetPayload
  landscape : Option RemoteAssetPayload
deriving DecidableEq, Repr

/-- The request body of POST /api/process. -/
structure ProcessRequestPayload where
  videos : List RemoteAssetPayload
  templates : TemplateInputPayload
deriving DecidableEq, Repr

/-- hasAtLeastOneTemplate. -/
def hasAtLeastOneTemplate (templates : TemplateInputPayload) : Bool :=
  templates.vertical.isSome || templates.square.isSome || templates.landscape.isSome

/-- Default per-owner cap (MAX_ACTIVE_JOBS_PER_OWNER). -/
def DEFAULT_MAX_ACTIVE_JOBS_PER_OWNER : Nat := 2

/-- Responses of POST /api/process. -/
inductive ProcessPostResponse where
  | badRequest (message : String)
  | tooManyActiveJobs (ownerActiveJobs ownerJobLimit : Nat)
  | serverError (message : String)
  | accepted (jobId : String) (ownerActiveJobs ownerJobLimit : Nat)
deriving DecidableEq, Repr

/-- handleProcessPost: shape validation, the per-owner cap check on the anon
fingerprint, then asset ingestion (the oracle `ingest`), enqueue with a
fresh UUID `newJobId`, and the ensureQueueWorkerRunning call. -/
def handleProcessPost (cap : Nat) (now : Nat) (newJobId ownerId : String)
    (body : ProcessRequestPayload) (ingest : Except String VideoProcessorPayload)
    (s : QState) : ProcessPostResponse × QState :=
  if body.videos.length = 0 then
    (ProcessPostResponse.badRequest "请求体必须包含至少一个视频引用", s)
  else if ¬ hasAtLeastOneTemplate body.templates then
    (ProcessPostResponse.badRequest "至少需要提供一种模板引用", s)
  else
    let activeJobsForOwner := getOwnerActiveJobCount s.jobs ownerId
    if activeJobsForOwner ≥ cap then
      (ProcessPostResponse.tooManyActiveJobs activeJobsForOwner cap, s)
    else
      match ingest with
      | Except.error e => (ProcessPostResponse.serverError e, s)
      | Except.ok payload =>
          match enqueueJob now newJobId payload ownerId s with
          | none => (ProcessPostResponse.serverError "缺少任务所属用户标识", s)
          | some r =>
              let s2 := (ensureQueueWorkerRunning now r.1).1
              (ProcessPostResponse.accepted newJobId
                (getOwnerActiveJobCount s2.jobs ownerId) cap, s2)

/-- Helper: the circuit breaker query changes neither store nor queue. -/
theorem isCircuitBreakerOpen_preserves (now : Nat) (s : QState) :
    (isCircuitBreakerOpen now s).2.jobs = s.jobs ∧
    (isCircuitBreakerOpen now s).2.pendingQueue = s.pendingQueue := by
  unfold isCircuitBreakerOpen
  split
  · exact ⟨rfl, rfl⟩
  · split
    · exact ⟨rfl, rfl⟩
    · exact ⟨rfl, rfl⟩

/-- Helper: ensureQueueWorkerRunning keeps the record of a pending job and
the pending queue intact. -/
theorem ensureQueueWorkerRunning_preserves_pending (now : Nat) (s : QState)
    (id : String) (j : MJob) (hj : storeGet s.jobs id = some j)
    (hst : j.status = JobStatus.pending) :
    storeGet (ensureQueueWorkerRunning now s).1.jobs id = some j ∧
    (ensureQueueWorkerRunning now s).1.pendingQueue = s.pendingQueue := by
  obtain ⟨hq, hcases⟩ := failStalledJobIfNeeded_characterization now s
  have hj1 : storeGet (failStalledJobIfNeeded now s).2.jobs id = some j := by
    rcases hcases with h | ⟨sid, j0, hcur, hget0, hst0, hother⟩
    · rw [h]; exact hj
    · by_cases hne : id = sid
      · subst hne
        rw [hj] at hget0
        obtain rfl := Option.some.inj hget0
        rw [hst] at hst0
        cases hst0
      · rw [hother id hne]; exact hj
  unfold ensureQueueWorkerRunning
  dsimp only
  split
  · exact ⟨by rw [(isCircuitBreakerOpen_preserves _ _).1]; exact hj1,
      by rw [(isCircuitBreakerOpen_preserves _ _).2]; exact hq⟩
  · constructor
    · rw [(startQueueWorkerIfNeeded_preserves _).1, (isCircuitBreakerOpen_preserves _ _).1]
      exact hj1
    · rw [(startQueueWorkerIfNeeded_preserves _).2, (isCircuitBreakerOpen_preserves _ _).2]
      exact hq

/-- C9: a structurally valid enqueue request is rejected with 429 carrying
ownerActiveJobs and ownerJobLimit, without creating any job record, exactly
when the fingerprint already owns at least the cap of pending or processing
jobs; below the cap, with ingestion succeeding, the job is admitted: a fresh
pending record owned by the fingerprint is stored and queued. -/
theorem owner_cap_enforced (cap now : Nat) (newJobId ownerId : String)
    (body : ProcessRequestPayload) (ingest : Except String VideoProcessorPayload)
    (s : QState) (hvideos : body.videos ≠ [])
    (htemplates : hasAtLeastOneTemplate body.templates = true) :
    (getOwnerActiveJobCount s.jobs ownerId ≥ cap →
      handleProcessPost cap now newJobId ownerId body ingest s =
        (ProcessPostResponse.tooManyActiveJobs
          (getOwnerActiveJobCount s.jobs ownerId) cap, s)) ∧
    (getOwnerActiveJobCount s.jobs ownerId < cap → jsTrim ownerId ≠ "" →
      storeGet s.jobs newJobId = none →
      ∀ payload, ingest = Except.ok payload →
        (∃ aj, (handleProcessPost cap now newJobId ownerId body ingest s).1 =
          ProcessPostResponse.accepted newJobId aj cap) ∧
        storeGet (handleProcessPost cap now newJobId ownerId body ingest s).2.jobs
            newJobId = some (freshJobRecord newJobId (jsTrim ownerId) now payload) ∧
        (handleProcessPost cap now newJobId ownerId body ingest s).2.pendingQueue =
          s.pendingQueue ++ [newJobId]) := by
  have hv : ¬ body.videos.length = 0 := by
    simpa [List.length_eq_zero] using hvideos
  have ht : ¬ ¬ hasAtLeastOneTemplate body.templates = true := by
    simp [htemplates]
  constructor
  · intro hcap
    unfold handleProcessPost
    rw [if_neg hv, if_neg ht]
    dsimp only
    rw [if_pos hcap]
  · intro hcap howner hfresh payload hok
    subst hok
    unfold handleProcessPost
    rw [if_neg hv, if_neg ht]
    dsimp only
    rw [if_neg (by omega)]
    simp only [enqueueJob, howner, if_false]
    have hrec : storeGet (startQueueWorkerIfNeeded { s with
        jobs := s.jobs ++ [(newJobId, freshJobRecord newJobId (jsTrim ownerId) now payload)]
        pendingQueue := s.pendingQueue ++ [newJobId] }).1.jobs newJobId =
        some (freshJobRecord newJobId (jsTrim ownerId) now payload) := by
      rw [(startQueueWorkerIfNeeded_preserves _).1]
      exact storeGet_append_fresh _ hfresh
    have hens := ensureQueueWorkerRunning_preserves_pending now
      (startQueueWorkerIfNeeded { s with
        jobs := s.jobs ++ [(newJobId, freshJobRecord newJobId (jsTrim ownerId) now payload)]
        pendingQueue := s.pendingQueue ++ [newJobId] }).1
      newJobId (freshJobRecord newJobId (jsTrim ownerId) now payload) hrec rfl
    refine ⟨⟨_, rfl⟩, ?_, ?_⟩
    · exact hens.1
    · rw [hens.2, (startQueueWorkerIfNeeded_preserves _).2]

/-- A pending job of the capped owner. -/
def ownerCapJob (id : String) : MJob := freshJobRecord id "anon_w" 0 samplePayloadOne

/-- Queue state in which the fingerprint anon_w already owns two active
jobs. -/
def ownerCapState : QState where
  jobs := [("job-1", ownerCapJob "job-1"), ("job-2", ownerCapJob "job-2")]
  pendingQueue := ["job-1", "job-2"]
  queueWorkerActive := false
  currentlyProcessingJob := none
  recentDurations := []
  averageDurationMs := DEFAULT_JOB_DURATION_MS
  consecutiveStalledJobs := 0
  circuitBreakerOpenedAt := none
  workerGeneration := 0
  activeWorkerPromise := false

/-- The video reference of the witness request. -/
def sampleVideoAsset : RemoteAssetPayload where
  url := "https://example.com/v.mp4"
  originalName := "v.mp4"
  size := some 1000
  mimeType := some "video/mp4"

/-- The template reference of the witness request. -/
def sampleTemplateAsset : RemoteAssetPayload where
  url := "https://example.com/t.png"
  originalName := "t.png"
  size := none
  mimeType := none

/-- A structurally valid request body for the cap witness. -/
def sampleRequestBody : ProcessRequestPayload where
  videos := [sampleVideoAsset]
  templates := { vertical := some sampleTemplateAsset, square := none, landscape := none }

/-- Witness for C9: at the default cap of two, a third submission from the
same fingerprint is rejected with 429 carrying the counts, and no state
changes. -/
theorem owner_cap_enforced_witness :
    handleProcessPost 2 500 "job-3" "anon_w" sampleRequestBody
        (Except.ok samplePayloadOne) ownerCapState =
      (ProcessPostResponse.tooManyActiveJobs 2 2, ownerCapState) := by
  have h := (owner_cap_enforced 2 500 "job-3" "anon_w" sampleRequestBody
    (Except.ok samplePayloadOne) ownerCapState (by decide) (by decide)).1 (by decide)
  exact h

end VTN
